import Mathlib

/-!
Telemetry client of dd-trace-go (`internal/telemetry/client.go`)

A shallow embedding of the telemetry reporting client: the request model, the
submit / retry / agentless-fallback protocol, the metric store, the request
builder and the `Start` / `Stop` / `Gauge` / `Count` / heartbeat state machine.

Conventions of the embedding
* `float64` metric values are an arbitrary type `V` with an addition and a zero;
  no algebraic law is assumed, so every statement holds for IEEE addition in
  the order the code performs it.
* Go pointers to `Request` are indices into an explicit heap of requests.
* A Go panic (write to a nil map, method call through a nil timer) is `none`.
* Everything read from the process environment is an explicit input.
-/

namespace Telemetry

/-! ## Data model -/

/-- The product area a metric or event belongs to, a Go `string` type. -/
abbrev Namespace := String

/-- The request types used by the client (`RequestTypeAppStarted`, ...). -/
inductive RequestType where
  | AppStarted
  | DependenciesLoaded
  | AppClosing
  | AppHeartbeat
  | GenerateMetrics
  deriving DecidableEq

/-- Modelled from the spec: the string constants behind the `RequestType` values are
declared outside the sources at hand; the spec names the five request types
app-started, dependencies-loaded, app-closing, app-heartbeat and
generate-metrics. -/
def RequestType.toString : RequestType → String
  | .AppStarted => "app-started"
  | .DependenciesLoaded => "dependencies-loaded"
  | .AppClosing => "app-closing"
  | .AppHeartbeat => "app-heartbeat"
  | .GenerateMetrics => "generate-metrics"

/-- Go `metricKind`, a string type. -/
abbrev metricKind := String

def metricKindGauge : metricKind := "gauge"

def metricKindCount : metricKind := "count"

/-- Go `metric`. `ts` is `float64(time.Now().Unix())`, kept as the integer
number of seconds. -/
structure metric (V : Type) where
  name : String
  kind : metricKind
  value : V
  ts : Int
  tags : List String
  common : Bool
  deriving DecidableEq

/-- One entry of a generate-metrics payload. `Points` holds `[ts, value]` pairs and
`Type_` is the Go field `Type`. -/
structure Series (V : Type) where
  Metric : String
  Points : List (Int × V)
  Type_ : String
  Tags : List String
  Common : Bool
  deriving DecidableEq

/-- The generate-metrics payload. -/
structure Metrics (V : Type) where
  Namespace : String
  Series : List (Series V)
  deriving DecidableEq

structure Configuration where
  Name : String
  Value : String
  deriving DecidableEq

structure ProductDetails where
  Version : String
  Enabled : Bool
  deriving DecidableEq

structure Products where
  AppSec : ProductDetails
  Profiler : ProductDetails
  deriving DecidableEq

structure Dependency where
  Name : String
  Version : String
  deriving DecidableEq

/-- The `interface{}` payload of a body: `nil`, `*AppStarted`, `Dependencies`
or `*Metrics`. -/
inductive Payload (V : Type) where
  | nil
  | AppStarted (configuration : List Configuration) (products : Products)
  | Dependencies (dependencies : List Dependency)
  | Metrics (m : Metrics V)
  deriving DecidableEq

structure Application where
  ServiceName : String
  Env : String
  ServiceVersion : String
  TracerVersion : String
  LanguageName : String
  LanguageVersion : String
  deriving DecidableEq

structure Host where
  Hostname : String
  OS : String
  OSVersion : String
  Architecture : String
  deriving DecidableEq

structure Body (V : Type) where
  APIVersion : String
  RequestType : RequestType
  TracerTime : Int
  RuntimeID : String
  SeqID : Int
  Debug : Bool
  Application : Application
  Host : Host
  Payload : Payload V
  deriving DecidableEq

/-- Go `http.Header`: header names with their values. -/
abbrev Header := List (String × List String)

/-- `Header.Set`: replaces every value stored under the key by the single value.
The key is kept as written: each write and read of a key in this file uses
the same literal, so Go's canonicalisation of the key is the same on both
sides. -/
def Header.Set (h : Header) (key value : String) : Header :=
  if h.any (fun e => e.1 == key) then
    h.map (fun e => if e.1 == key then (key, [value]) else e)
  else h ++ [(key, [value])]

/-- The values stored under a key, if the key is present. -/
def Header.Values (h : Header) (key : String) : Option (List String) :=
  (h.find? (fun e => e.1 == key)).map Prod.snd

/-- A handle on a Go `*http.Client`. -/
abbrev HTTPClient := String

def defaultHTTPClient : HTTPClient := "defaultHTTPClient"

/-- Go `Request`. -/
structure Request (V : Type) where
  Body : Body V
  Header : Header
  HTTPClient : Option HTTPClient
  URL : String
  deriving DecidableEq

/-- Process-wide values the client reads but does not compute: package
variables, build constants and helpers of other packages. -/
structure Globals where
  agentlessURL : String
  defaultAPIKey : String
  hostname : String
  osName : String
  osVersion : String
  goarch : String
  goVersion : String
  versionTag : String
  containerID : String
  runtimeID : String
  deriving DecidableEq

/-! ## Submission transport and delivery controller -/

/-- Go `error` values that `trySubmit` can return. `badStatus` is `errBadStatus`. -/
inductive SubmitError where
  | marshal (msg : String)
  | newRequest (msg : String)
  | transport (msg : String)
  | badStatus (code : Int)
  deriving DecidableEq

/-- The fallible calls made inside `trySubmit`. `marshalErr` is the error of
`json.Marshal(r.Body)`, `newRequestErr` the error of `http.NewRequest` for a URL,
and `Do n r` the result of the `n`-th call of `client.Do` made by one `submit`,
either a transport error or the status code of the response. -/
structure Transport (V : Type) where
  marshalErr : Body V → Option String
  newRequestErr : String → Option String
  Do : Nat → Request V → Except String Int

/-- The slice `doNotRetry` of `agentlessRetry`. -/
def doNotRetry : List Int := [400, 429, 401, 403]

/-- Go `agentlessRetry(req, resp, err)`. `err` is the transport error if any and
`statusCode` is `resp.StatusCode`, read only when there is no error. The loop
`for status := range doNotRetry` has one iteration variable, which in Go ranges
over the indices of the slice. -/
def agentlessRetry {V : Type} (g : Globals) (req : Request V) (statusCode : Int)
    (err : Option String) : Bool :=
  if req.URL = g.agentlessURL then false
  else if err.isSome then true
  else if (List.range doNotRetry.length).any (fun status => statusCode == (status : Int)) then false
  else true

/-- Go `Request.trySubmit`, as the `n`-th attempt of a submission. -/
def trySubmit {V : Type} (g : Globals) (t : Transport V) (n : Nat) (r : Request V) :
    Bool × Option SubmitError :=
  match t.marshalErr r.Body with
  | some e => (false, some (.marshal e))
  | none =>
    match t.newRequestErr r.URL with
    | some e => (false, some (.newRequest e))
    | none =>
      match t.Do n r with
      | .error e => (agentlessRetry g r 0 (some e), some (.transport e))
      | .ok statusCode =>
        if statusCode ≠ 202 ∧ statusCode ≠ 200 then
          (agentlessRetry g r statusCode none, some (.badStatus statusCode))
        else (false, none)

/-- What one `submit` did: the error it returned, the request as it is afterwards
and the request as it stood at each call of `trySubmit`, in call order. -/
structure SubmitResult (V : Type) where
  err : Option SubmitError
  request : Request V
  attempts : List (Request V)

/-- Go `Request.submit`. The `err` declared in the inner `if` statement is
scoped to that statement; the final `return err` reads the outer variable. -/
def submit {V : Type} (g : Globals) (t : Transport V) (r : Request V) : SubmitResult V :=
  let (retry, err) := trySubmit g t 0 r
  if retry then
    let r1 : Request V :=
      { r with URL := g.agentlessURL, Header := r.Header.Set "DD-API-KEY" g.defaultAPIKey }
    let (_, err1) := trySubmit g t 1 r1
    if err1 = none then ⟨none, r1, [r, r1]⟩
    else ⟨err, r1, [r, r1]⟩
  else ⟨err, r, [r]⟩

/-! ## Client state -/

/-- A Go map kept as the list of its entries. Reading is `List.lookup`; Go leaves
the iteration order unspecified, the list order stands for the order of one
iteration. -/
abbrev GoMap (K A : Type) := List (K × A)

/-- The map write `m[k] = a`. -/
def GoMap.set {K A : Type} [BEq K] (m : GoMap K A) (k : K) (a : A) : GoMap K A :=
  if m.any (fun e => e.1 == k) then
    m.map (fun e => if e.1 == k then (k, a) else e)
  else m ++ [(k, a)]

/-- Go `*time.Timer`: the duration it was last armed with, in nanoseconds, and
whether it is armed. -/
structure Timer where
  d : Int
  active : Bool
  deriving DecidableEq

/-- The exported option fields of `Client`, the ones above the mutex. -/
structure Options where
  URL : String
  APIKey : String
  Namespace : Telemetry.Namespace
  Service : String
  Env : String
  Version : String
  Client : Option HTTPClient
  deriving DecidableEq

/-- Go `Client`: the option fields followed by `heartbeatInterval` (nanoseconds)
and the fields guarded by `mu`. `requests` holds pointers into the heap,
`metrics` is `none` for the nil map and `heartbeatT` is `none` for the nil timer. -/
structure Client (V : Type) extends Options where
  heartbeatInterval : Int
  debug : Bool
  started : Bool
  seqID : Int
  heartbeatT : Option Timer
  requests : List Nat
  metrics : Option (GoMap Telemetry.Namespace (GoMap String (metric V)))
  newMetrics : Bool
  deriving DecidableEq

/-- The client together with the heap of every `Request` built so far, in
allocation order, and the batches handed to background workers so far (each
`go func()` of `flush` contributes its `submissions` slice). -/
structure World (V : Type) where
  c : Client V
  heap : List (Request V)
  spawned : List (List Nat)
  deriving DecidableEq

/-- The zero-value client `new(Client)` with the given option fields, nothing
built and nothing handed over. -/
def World.zero (V : Type) (o : Options) : World V :=
  { c := { toOptions := o, heartbeatInterval := 0, debug := false, started := false,
           seqID := 0, heartbeatT := none, requests := [], metrics := none,
           newMetrics := false },
    heap := [], spawned := [] }

/-- The request a pointer refers to. -/
def World.deref {V : Type} (w : World V) (p : Nat) : Option (Request V) := w.heap[p]?

/-- The assignment `r.Body.Payload = payload` through the pointer `r`. -/
def World.setPayload {V : Type} (w : World V) (r : Nat) (payload : Payload V) : World V :=
  match w.heap[r]? with
  | some req => { w with heap := w.heap.set r { req with Body := { req.Body with Payload := payload } } }
  | none => w

/-- Two's-complement wrap-around of `int64` arithmetic. -/
def wrapInt64 (x : Int) : Int := (x + 2 ^ 63) % 2 ^ 64 - 2 ^ 63

def defaultHeartbeatInterval : Int := 60

/-- Go `time.Second`, in nanoseconds. -/
def second : Int := 1000000000

/-! ## Metric aggregator -/

/-- Go `newmetric`; `value` and `ts` start at their zero values. -/
def newmetric {V : Type} [Zero V] (name : String) (kind : metricKind) (tags : List String)
    (common : Bool) : metric V :=
  { name := name, kind := kind, value := 0, ts := 0, tags := [] ++ tags, common := common }

/-- Go `metricKey`. -/
def metricKey (name : String) (tags : List String) : String :=
  name ++ String.intercalate "-" tags

/-- The metric stored for a namespace and key, if any. -/
def lookupMetric {V : Type} (c : Client V) (ns : Namespace) (key : String) : Option (metric V) :=
  match c.metrics with
  | none => none
  | some mm =>
    match mm.lookup ns with
    | none => none
    | some inner => inner.lookup key

/-- The shared body of `Gauge` and `Count` after the `started` check: find or create
the metric, apply `upd` to its value, stamp the time and set the dirty flag. A
write to the nil map panics. -/
def record {V : Type} [Zero V] (kind : metricKind) (upd : V → V) (now : Int)
    (ns : Namespace) (name : String) (tags : List String) (common : Bool) (w : World V) :
    Option (World V) :=
  match w.c.metrics with
  | none => none
  | some mm =>
    let mm1 := if (mm.lookup ns).isNone then GoMap.set mm ns [] else mm
    let key := metricKey name tags
    let inner : GoMap String (metric V) := (mm1.lookup ns).getD []
    let m := match inner.lookup key with
      | some m => m
      | none => newmetric name kind tags common
    let m1 : metric V := { m with value := upd m.value, ts := now }
    some { w with c := { w.c with metrics := some (GoMap.set mm1 ns (GoMap.set inner key m1)),
                                  newMetrics := true } }

/-- Go `Client.Gauge`, called when the clock reads `now`. -/
def Gauge {V : Type} [Zero V] (now : Int) (ns : Namespace) (name : String) (value : V)
    (tags : List String) (common : Bool) (w : World V) : Option (World V) :=
  if !w.c.started then some w
  else record metricKindGauge (fun _ => value) now ns name tags common w

/-- Go `Client.Count`, called when the clock reads `now`. -/
def Count {V : Type} [Zero V] [Add V] (now : Int) (ns : Namespace) (name : String) (value : V)
    (tags : List String) (common : Bool) (w : World V) : Option (World V) :=
  if !w.c.started then some w
  else record metricKindCount (fun old => old + value) now ns name tags common w

/-! ## Request builder -/

/-- Go `Client.newRequest`, called when the clock reads `now`: the world with the
counter advanced and the request allocated, and the pointer to the request. -/
def newRequest {V : Type} (g : Globals) (now : Int) (t : RequestType) (w : World V) :
    World V × Nat :=
  let seqID := wrapInt64 (w.c.seqID + 1)
  let body : Body V :=
    { APIVersion := "v2", RequestType := t, TracerTime := now, RuntimeID := g.runtimeID,
      SeqID := seqID, Debug := w.c.debug,
      Application :=
        { ServiceName := w.c.Service, Env := w.c.Env, ServiceVersion := w.c.Version,
          TracerVersion := g.versionTag, LanguageName := "go",
          LanguageVersion := g.goVersion },
      Host :=
        { Hostname := g.hostname, OS := g.osName, OSVersion := g.osVersion,
          Architecture := g.goarch },
      Payload := .nil }
  let header : Header :=
    [("Content-Type", ["application/json"]),
     ("DD-Telemetry-API-Version", ["v2"]),
     ("DD-Telemetry-Request-Type", [t.toString]),
     ("DD-Client-Library-Language", ["go"]),
     ("DD-Client-Library-Version", [g.versionTag]),
     ("DD-Agent-Env", [w.c.Env]),
     ("DD-Agent-Hostname", [g.hostname]),
     ("Datadog-Container-ID", [g.containerID])]
  let header1 := if w.c.URL = g.agentlessURL then header.Set "DD-API-KEY" w.c.APIKey else header
  let client := match w.c.Client with
    | none => defaultHTTPClient
    | some cl => cl
  let req : Request V := { Body := body, Header := header1, HTTPClient := some client, URL := w.c.URL }
  ({ w with c := { w.c with seqID := seqID }, heap := w.heap ++ [req] }, w.heap.length)

/-- Go `Client.scheduleSubmit`. -/
def scheduleSubmit {V : Type} (w : World V) (r : Nat) : World V :=
  { w with c := { w.c with requests := w.c.requests ++ [r] } }

/-- The `Series` entry `flush` builds from one metric. -/
def seriesOf {V : Type} (m : metric V) : Series V :=
  { Metric := m.name, Type_ := m.kind, Tags := m.tags, Common := m.common,
    Points := [(m.ts, m.value)] }

/-- The payload `flush` builds for one namespace, reading `c.metrics[namespace]`. -/
def payloadOf {V : Type} (mm : GoMap Namespace (GoMap String (metric V))) (ns : Namespace) :
    Metrics V :=
  { Namespace := ns, Series := ((mm.lookup ns).getD []).map (fun e => seriesOf e.2) }

/-- The loop `for namespace := range c.metrics` of `flush`: each iteration stores
the namespace's payload through the one pointer `r` and appends `r`. -/
def flushMetrics {V : Type} (mm : GoMap Namespace (GoMap String (metric V))) (r : Nat)
    (w : World V) (submissions : List Nat) : World V × List Nat :=
  (mm.map Prod.fst).foldl
    (fun acc ns => (acc.1.setPayload r (.Metrics (payloadOf mm ns)), acc.2 ++ [r]))
    (w, submissions)

/-- Go `Client.flush`. The batch given to the background worker is appended to
`spawned`. Ranging over the nil map runs no iteration. -/
def flush {V : Type} (g : Globals) (now : Int) (w : World V) : World V :=
  let st : World V × List Nat :=
    if w.c.newMetrics then
      let w0 : World V := { w with c := { w.c with newMetrics := false } }
      let nr := newRequest g now .GenerateMetrics w0
      flushMetrics (nr.1.c.metrics.getD []) nr.2 nr.1 []
    else (w, [])
  let submissions := st.2 ++ st.1.c.requests
  { st.1 with c := { st.1.c with requests := [] }, spawned := st.1.spawned ++ [submissions] }

/-! ## Client orchestrator -/

/-- What `Start` reads from the process environment. -/
structure StartEnv where
  disabled : Bool
  fallbackOps : Options → Options × Option String
  debugEnv : Bool
  appsecEnabled : Bool
  collectDependencies : Bool
  buildInfo : Option (List Dependency)
  heartbeatEnv : Int
  now : Int

/-- The middle of `Start`: the app-started request is built, given its payload and
queued; when dependencies are collected the dependencies-loaded request follows. -/
def startRequests {V : Type} (g : Globals) (env : StartEnv) (configuration : List Configuration)
    (w0 : World V) : World V :=
  let payload : Payload V := .AppStarted configuration
    { AppSec := { Version := g.versionTag, Enabled := env.appsecEnabled },
      Profiler := { Version := g.versionTag, Enabled := false } }
  let a := newRequest g env.now .AppStarted w0
  let w1 := scheduleSubmit (a.1.setPayload a.2 payload) a.2
  if env.collectDependencies then
    let depPayload : Payload V := .Dependencies (env.buildInfo.getD [])
    let d := newRequest g env.now .DependenciesLoaded w1
    scheduleSubmit (d.1.setPayload d.2 depPayload) d.2
  else w1

/-- The end of `Start`: the heartbeat interval is read, replaced by the default when
it is outside `[1, 3600]`, and the timer is armed with it. -/
def armHeartbeat {V : Type} (env : StartEnv) (w3 : World V) : World V :=
  let heartbeat :=
    if env.heartbeatEnv < 1 ∨ env.heartbeatEnv > 3600 then defaultHeartbeatInterval
    else env.heartbeatEnv
  let interval := heartbeat * second
  { w3 with c := { w3.c with heartbeatInterval := interval,
                             heartbeatT := some { d := interval, active := true } } }

/-- The body of `Start` once its three guards have passed: mark the client
started, allocate the metrics map, read the debug flag, queue the start
requests, flush, arm the heartbeat. -/
def startSession {V : Type} (g : Globals) (env : StartEnv) (configuration : List Configuration)
    (wf : World V) : World V :=
  let w0 : World V :=
    { wf with c := { wf.c with started := true, metrics := some [], debug := env.debugEnv } }
  armHeartbeat env (flush g env.now (startRequests g env configuration w0))

/-- Go `Client.Start`.

Modelled from the spec: `Client.fallbackOps` is not among the sources; the spec
describes it as a fallback-options validation that can fail (agentless mode
requires an API key). It is the field `fallbackOps` of the environment: from
the option fields it gives the option fields it leaves behind and its error. -/
def Start {V : Type} (g : Globals) (env : StartEnv) (configuration : List Configuration)
    (w : World V) : World V :=
  if env.disabled then w
  else if w.c.started then w
  else
    let fb := env.fallbackOps w.c.toOptions
    let wf : World V := { w with c := { w.c with toOptions := fb.1 } }
    if fb.2.isSome then wf
    else startSession g env configuration wf

/-- Go `Client.Stop`. Calling `Stop` on a nil timer panics. -/
def Stop {V : Type} (g : Globals) (now : Int) (w : World V) : Option (World V) :=
  if !w.c.started then some w
  else
    match w.c.heartbeatT with
    | none => none
    | some t =>
      let w0 : World V :=
        { w with c := { w.c with started := false, heartbeatT := some { t with active := false } } }
      let r := newRequest g now .AppClosing w0
      some (flush g now (scheduleSubmit r.1 r.2))

/-- Go `Client.backgroundHeartbeat`, one heartbeat tick. Calling `Reset` on a nil
timer panics. -/
def backgroundHeartbeat {V : Type} (g : Globals) (now : Int) (w : World V) : Option (World V) :=
  if !w.c.started then some w
  else
    let r := newRequest g now .AppHeartbeat w
    let w1 := flush g now (scheduleSubmit r.1 r.2)
    match w1.c.heartbeatT with
    | none => none
    | some _ =>
      some { w1 with c := { w1.c with
        heartbeatT := some { d := w1.c.heartbeatInterval, active := true } } }

/-- The operations on one client. -/
inductive Op (V : Type) where
  | Start (env : StartEnv) (configuration : List Configuration)
  | Stop (now : Int)
  | Gauge (now : Int) (ns : Namespace) (name : String) (value : V) (tags : List String)
      (common : Bool)
  | Count (now : Int) (ns : Namespace) (name : String) (value : V) (tags : List String)
      (common : Bool)
  | Heartbeat (now : Int)

/-- One operation. -/
def step {V : Type} [Zero V] [Add V] (g : Globals) (op : Op V) (w : World V) :
    Option (World V) :=
  match op with
  | .Start env configuration => some (Start g env configuration w)
  | .Stop now => Stop g now w
  | .Gauge now ns name value tags common => Gauge now ns name value tags common w
  | .Count now ns name value tags common => Count now ns name value tags common w
  | .Heartbeat now => backgroundHeartbeat g now w

/-- A sequence of operations, from left to right. -/
def run {V : Type} [Zero V] [Add V] (g : Globals) : List (Op V) → World V → Option (World V)
  | [], w => some w
  | op :: ops, w =>
    match step g op w with
    | none => none
    | some w1 => run g ops w1


/-! ## Concrete inputs -/

/-- The package defaults, with a sample API key and host. -/
def exampleGlobals : Globals :=
  { agentlessURL := "https://instrumentation-telemetry-intake.datadoghq.com/api/v2/apmtelemetry",
    defaultAPIKey := "k", hostname := "h", osName := "linux", osVersion := "6",
    goarch := "amd64", goVersion := "go1.19", versionTag := "v1.47.0", containerID := "",
    runtimeID := "r" }

/-- Options of a client that reports through a local agent. -/
def agentOptions : Options :=
  { URL := "http://localhost:8126/telemetry/proxy/api/v2/apmtelemetry", APIKey := "",
    Namespace := "tracers", Service := "svc", Env := "prod", Version := "1", Client := none }

/-- Options of a client that reports straight to the agentless endpoint. -/
def agentlessOptions : Options :=
  { agentOptions with URL := exampleGlobals.agentlessURL, APIKey := "k" }

/-- A request body as `newRequest` builds it for a heartbeat. -/
def exampleBody : Body Int :=
  { APIVersion := "v2", RequestType := .AppHeartbeat, TracerTime := 0, RuntimeID := "r",
    SeqID := 1, Debug := false,
    Application :=
      { ServiceName := "svc", Env := "prod", ServiceVersion := "1", TracerVersion := "v1.47.0",
        LanguageName := "go", LanguageVersion := "go1.19" },
    Host := { Hostname := "h", OS := "linux", OSVersion := "6", Architecture := "amd64" },
    Payload := .nil }

/-- A request addressed to the local agent. -/
def agentRequest : Request Int :=
  { Body := exampleBody, Header := [("Content-Type", ["application/json"])],
    HTTPClient := some defaultHTTPClient, URL := agentOptions.URL }

/-- A request addressed to the agentless endpoint. -/
def agentlessRequest : Request Int :=
  { Body := exampleBody,
    Header := [("Content-Type", ["application/json"]), ("DD-API-KEY", ["k"])],
    HTTPClient := some defaultHTTPClient, URL := exampleGlobals.agentlessURL }

/-- A network in which the `n`-th call of `client.Do` is answered with the `n`-th
status of the list, and with 500 once the list is used up. -/
def statusTransport (codes : List Int) : Transport Int :=
  { marshalErr := fun _ => none, newRequestErr := fun _ => none,
    Do := fun n _ => .ok (codes.getD n 500) }

/-- A network in which every call of `client.Do` fails without a response. -/
def downTransport : Transport Int :=
  { marshalErr := fun _ => none, newRequestErr := fun _ => none,
    Do := fun _ _ => .error "connection refused" }

/-- An environment in which telemetry is enabled, the fallback options validate
and leave the options as they are, and dependencies are collected. -/
def exampleEnv : StartEnv :=
  { disabled := false, fallbackOps := fun o => (o, none), debugEnv := false,
    appsecEnabled := false, collectDependencies := true, buildInfo := some [],
    heartbeatEnv := 60, now := 0 }

/-- The generate-metrics payloads among the requests of a batch, as the worker
finds them in the heap. -/
def reported {V : Type} (w : World V) (batch : List Nat) : List (Metrics V) :=
  batch.filterMap fun p =>
    match w.deref p with
    | some r =>
      match r.Body.Payload with
      | .Metrics m => some m
      | _ => none
    | none => none

/-- The request types of the requests of a batch. -/
def batchTypes {V : Type} (w : World V) (batch : List Nat) : List RequestType :=
  batch.filterMap fun p => (w.deref p).map fun r => r.Body.RequestType

/-- The counter and the sequence numbers of the requests built so far agree with
`int64` counting from one: the counter is the number of requests built and the
`i`-th request built (from zero) carries `i + 1`, both wrapped to `int64`. -/
def seqOK (s : Int) (l : List Int) : Prop :=
  s = wrapInt64 l.length ∧ l = (List.range l.length).map fun (i : Nat) => wrapInt64 ((i : Int) + 1)

/-- The sequence numbers of the requests built so far, in construction order. -/
def World.seqs {V : Type} (w : World V) : List Int := w.heap.map fun r => r.Body.SeqID

/-- The request types of the requests built so far, in construction order. -/
def World.types {V : Type} (w : World V) : List RequestType :=
  w.heap.map fun r => r.Body.RequestType

/-- The sequence-number invariant of a world. -/
def World.SeqOK {V : Type} (w : World V) : Prop := seqOK w.c.seqID w.seqs

/-- A started client has its metrics map allocated and its heartbeat timer set. -/
def World.Live {V : Type} (w : World V) : Prop :=
  w.c.started = true → w.c.metrics.isSome = true ∧ w.c.heartbeatT.isSome = true

/-- One step of a session that works on a single metric key: a call (of `Gauge` or
of `Count`) on the key, a flush, or a heartbeat tick. -/
inductive KeyOp (V : Type) where
  | call (now : Int) (value : V) (common : Bool)
  | flush (now : Int)
  | tick (now : Int)

/-- Runs such a session; `call` is `Gauge` or `Count` at the fixed key. -/
def runKey {V : Type} (g : Globals) (call : Int → V → Bool → World V → Option (World V)) :
    List (KeyOp V) → World V → Option (World V)
  | [], w => some w
  | .call now value common :: ops, w =>
    match call now value common w with
    | none => none
    | some w1 => runKey g call ops w1
  | .flush now :: ops, w => runKey g call ops (flush g now w)
  | .tick now :: ops, w =>
    match backgroundHeartbeat g now w with
    | none => none
    | some w1 => runKey g call ops w1

/-- The values passed by the calls of a session, in call order. -/
def callValues {V : Type} : List (KeyOp V) → List V
  | [] => []
  | .call _ value _ :: ops => value :: callValues ops
  | .flush _ :: ops => callValues ops
  | .tick _ :: ops => callValues ops

/-- The kind and value under a key after calls with the given values, from the
kind and value stored before: the first call on an absent key creates the
metric with the call's kind and value zero, and every call applies `f`. -/
def afterCalls {V : Type} [Zero V] (kind : metricKind) (f : V → V → V) :
    List V → Option (metricKind × V) → Option (metricKind × V)
  | [], st => st
  | v :: vs, none => afterCalls kind f vs (some (kind, f v 0))
  | v :: vs, some (k, old) => afterCalls kind f vs (some (k, f v old))

/-- A client just started through the local agent. -/
def startedWorld : World Int := Start exampleGlobals exampleEnv [] (World.zero Int agentOptions)

/-- A session on one key: two calls with a tick between them and a flush after. -/
def exampleKeyOps : List (KeyOp Int) :=
  [.call 10 5 true, .tick 11, .call 12 7 true, .flush 13]

/-- A started client whose one gauge has been drained by a heartbeat tick. -/
def drainedWorld : World Int :=
  (run exampleGlobals
      [.Start exampleEnv [], .Gauge 10 "tracers" "spans" 5 [] true, .Heartbeat 12]
      (World.zero Int agentOptions)).getD (World.zero Int agentOptions)

/-- The sample environment with another value of the heartbeat interval option. -/
def heartbeatEnvOf (h : Int) : StartEnv := { exampleEnv with heartbeatEnv := h }

/-- An environment in which the fallback options do not validate. -/
def failingEnv : StartEnv :=
  { exampleEnv with
    fallbackOps := fun o =>
      (o, some "agentless is turned on, but valid DD API key was not found") }

/-- A started client with one dirty gauge, before any tick. -/
def dirtyWorld : World Int :=
  (run exampleGlobals [.Start exampleEnv [], .Gauge 10 "tracers" "spans" 5 [] true]
      (World.zero Int agentOptions)).getD (World.zero Int agentOptions)

/-- Nothing is queued, and the dirty flag is set only on a started client whose
metrics map holds a namespace. -/
def World.Clean {V : Type} (w : World V) : Prop :=
  w.c.requests = [] ∧
    (w.c.newMetrics = true → w.c.started = true ∧ w.c.metrics.getD [] ≠ [])

/-- What identifies a metric apart from its value and its time stamp. -/
structure Identity where
  kind : metricKind
  name : String
  tags : List String
  common : Bool
  deriving DecidableEq

/-- The identity of a stored metric. -/
def metric.identity {V : Type} (m : metric V) : Identity :=
  { kind := m.kind, name := m.name, tags := m.tags, common := m.common }

/-- For a `Gauge` or `Count` call: the namespace and key it works on and the
identity it gives to the metric if it has to create it. -/
def Op.metricCall {V : Type} : Op V → Option (Namespace × String × Identity)
  | .Gauge _ ns name _ tags common =>
    some (ns, metricKey name tags,
      { kind := metricKindGauge, name := name, tags := tags, common := common })
  | .Count _ ns name _ tags common =>
    some (ns, metricKey name tags,
      { kind := metricKindCount, name := name, tags := tags, common := common })
  | _ => none

/-- Every namespace occurs once in the metrics map and every key occurs once in
the map of its namespace, as in a Go map. -/
def MetricsUnique {V : Type} (mm : GoMap Namespace (GoMap String (metric V))) : Prop :=
  (mm.map Prod.fst).Nodup ∧ ∀ e ∈ mm, (e.2.map Prod.fst).Nodup

/-- Reading `mm[ns][key]` from a metrics map. -/
def lookup2 {A : Type} (mm : GoMap Namespace (GoMap String A)) (ns : Namespace) (key : String) :
    Option A :=
  match mm.lookup ns with
  | none => none
  | some inner => inner.lookup key

/-- The metrics map that `record` leaves behind, from the map it finds. -/
def recordMap {V : Type} [Zero V] (kind : metricKind) (upd : V → V) (now : Int)
    (ns : Namespace) (name : String) (tags : List String) (common : Bool)
    (mm : GoMap Namespace (GoMap String (metric V))) :
    GoMap Namespace (GoMap String (metric V)) :=
  let mm1 := if (mm.lookup ns).isNone then GoMap.set mm ns [] else mm
  let key := metricKey name tags
  let inner : GoMap String (metric V) := (mm1.lookup ns).getD []
  let m := match inner.lookup key with
    | some m => m
    | none => newmetric name kind tags common
  GoMap.set mm1 ns (GoMap.set inner key { m with value := upd m.value, ts := now })

/-- A session of metric calls in which a count follows a gauge on the same key. -/
def mixedCalls : List (Op Int) :=
  [.Gauge 10 "tracers" "spans" 5 [] true, .Count 11 "tracers" "spans" 2 [] false,
   .Count 12 "profilers" "samples" 1 ["a:b"] false]

/-- The characters that `strings.Join` appends after the first element: each
further element preceded by the separator. -/
def tailChars (sep : List Char) : List (List Char) → List Char
  | [] => []
  | a :: as => sep ++ a ++ tailChars sep as

/-- A tag list as the claim on key identity takes it: no tag is empty and no tag
holds the separator. -/
def PlainTags (tags : List String) : Prop :=
  ∀ t ∈ tags, t ≠ "" ∧ '-' ∉ t.data

/-- Nothing is queued, and the dirty flag is set only on a started client that
holds at least one metric. -/
def World.Settled {V : Type} (w : World V) : Prop :=
  w.c.requests = [] ∧
    (w.c.newMetrics = true →
      w.c.started = true ∧ ∃ ns key m, lookupMetric w.c ns key = some m)

/-- Every generate-metrics request built so far is listed in a batch that was
handed to a worker. -/
def World.GenSubmitted {V : Type} (w : World V) : Prop :=
  ∀ p, w.types[p]? = some RequestType.GenerateMetrics → ∃ b ∈ w.spawned, p ∈ b

/-- A session that stops the client while a gauge is dirty and starts it again. -/
def restartSession : List (Op Int) :=
  [.Gauge 1 "tracers" "early" 1 [] true, .Start exampleEnv [],
   .Gauge 10 "tracers" "spans" 5 [] true, .Stop 11, .Count 12 "tracers" "late" 1 [] true,
   .Start exampleEnv [], .Heartbeat 13]

/-- The world in which a heartbeat tick on `dirtyWorld` calls `flush`: the
app-heartbeat request is built and queued, the gauge is dirty. -/
def tickFlushWorld : World Int :=
  scheduleSubmit (newRequest exampleGlobals 11 .AppHeartbeat dirtyWorld).1 dirtyWorld.heap.length

/-- A session with metrics in two namespaces, flushed by one heartbeat tick. -/
def twoNamespaces (first second : Namespace) : List (Op Int) :=
  [.Start exampleEnv [], .Gauge 10 first "spans" 5 ["a:b"] true,
   .Count 11 second "samples" 2 [] false, .Heartbeat 12]

/-- A session with one gauge and two heartbeat ticks after it. -/
def gaugeThenTwoTicks : List (Op Int) :=
  [.Start exampleEnv [], .Gauge 10 "tracers" "spans" 5 [] true, .Heartbeat 12, .Heartbeat 13]

/-! ## Submission: lemmas -/

theorem agentlessRetry_agentless {V : Type} (g : Globals) (r : Request V) (s : Int)
    (e : Option String) (h : r.URL = g.agentlessURL) : agentlessRetry g r s e = false := by
  simp [agentlessRetry, h]

theorem trySubmit_response {V : Type} (g : Globals) (t : Transport V) (n : Nat) (r : Request V)
    (status : Int) (hm : t.marshalErr r.Body = none) (hn : t.newRequestErr r.URL = none)
    (hd : t.Do n r = .ok status) :
    trySubmit g t n r =
      if status ≠ 202 ∧ status ≠ 200 then
        (agentlessRetry g r status none, some (.badStatus status))
      else (false, none) := by
  simp [trySubmit, hm, hn, hd]

theorem trySubmit_retry_agentless {V : Type} (g : Globals) (t : Transport V) (n : Nat)
    (r : Request V) (h : r.URL = g.agentlessURL) : (trySubmit g t n r).1 = false := by
  unfold trySubmit
  cases t.marshalErr r.Body with
  | some e => rfl
  | none =>
    cases t.newRequestErr r.URL with
    | some e => rfl
    | none =>
      cases t.Do n r with
      | error e => simp [agentlessRetry_agentless g r _ _ h]
      | ok s =>
        by_cases hs : s ≠ 202 ∧ s ≠ 200
        · simp [hs, agentlessRetry_agentless g r _ _ h]
        · simp [hs]

theorem submit_no_retry {V : Type} (g : Globals) (t : Transport V) (r : Request V)
    (h : (trySubmit g t 0 r).1 = false) :
    submit g t r = ⟨(trySubmit g t 0 r).2, r, [r]⟩ := by
  unfold submit
  cases hts : trySubmit g t 0 r with
  | mk retry err =>
    rw [hts] at h
    simp only at h
    subst h
    simp

theorem range_doNotRetry_any (s : Int) :
    (List.range doNotRetry.length).any (fun status => s == (status : Int))
      = decide (0 ≤ s ∧ s ≤ 3) := by
  have hr : List.range doNotRetry.length = [0, 1, 2, 3] := by decide
  rw [hr]
  by_cases h : 0 ≤ s ∧ s ≤ 3
  · have hs : s = 0 ∨ s = 1 ∨ s = 2 ∨ s = 3 := by omega
    rcases hs with h0 | h0 | h0 | h0 <;> subst h0 <;> decide
  · have h0 : s ≠ 0 := by omega
    have h1 : s ≠ 1 := by omega
    have h2 : s ≠ 2 := by omega
    have h3 : s ≠ 3 := by omega
    simp [h, h0, h1, h2, h3]

theorem agentlessRetry_status {V : Type} (g : Globals) (r : Request V) (s : Int)
    (h : r.URL ≠ g.agentlessURL) :
    agentlessRetry g r s none = true ↔ ¬ (0 ≤ s ∧ s ≤ 3) := by
  unfold agentlessRetry
  rw [range_doNotRetry_any]
  by_cases h03 : 0 ≤ s ∧ s ≤ 3 <;> simp [h, h03]

theorem agentlessRetry_transport_error {V : Type} (g : Globals) (r : Request V) (s : Int)
    (e : String) (h : r.URL ≠ g.agentlessURL) : agentlessRetry g r s (some e) = true := by
  simp [agentlessRetry, h]

theorem Header.Values_Set (h : Header) (key value : String) :
    (h.Set key value).Values key = some [value] := by
  unfold Header.Set Header.Values
  cases ha : h.any (fun e => e.1 == key)
  · simp only [Bool.false_eq_true, if_false]
    rw [List.find?_append]
    have hnone : List.find? (fun e => e.1 == key) h = none := by
      rw [List.find?_eq_none]
      intro x hx hcon
      have : h.any (fun e => e.1 == key) = true := List.any_eq_true.mpr ⟨x, hx, hcon⟩
      rw [ha] at this; cases this
    simp [hnone]
  · simp only [if_true]
    induction h with
    | nil => simp at ha
    | cons e es ih =>
      by_cases hk : e.1 = key
      · simp [hk]
      · have hk3 : (e.1 == key) = false := by simpa using hk
        have hrest : es.any (fun e => e.1 == key) = true := by simpa [hk3] using ha
        simp only [List.map_cons, hk3, Bool.false_eq_true, if_false, List.find?_cons]
        exact ih hrest

/-- When the first attempt asks for a retry, `submit` makes exactly two attempts:
the request as given, then the same request with the agentless URL and the
default API key under `DD-API-KEY`; it returns nil when the second attempt
succeeds and the error of the first attempt otherwise. -/
theorem submit_retry {V : Type} (g : Globals) (t : Transport V) (r : Request V)
    (h : (trySubmit g t 0 r).1 = true) :
    ∃ r1 : Request V, (submit g t r).attempts = [r, r1] ∧ (submit g t r).request = r1
      ∧ r1.URL = g.agentlessURL ∧ r1.Body = r.Body
      ∧ r1.Header.Values "DD-API-KEY" = some [g.defaultAPIKey]
      ∧ (submit g t r).err =
          if (trySubmit g t 1 r1).2 = none then none else (trySubmit g t 0 r).2 := by
  refine ⟨{ r with URL := g.agentlessURL, Header := r.Header.Set "DD-API-KEY" g.defaultAPIKey },
    ?_, ?_, rfl, rfl, Header.Values_Set _ _ _, ?_⟩ <;>
  · unfold submit
    cases hts : trySubmit g t 0 r with
    | mk retry err =>
      rw [hts] at h
      simp only at h
      subst h
      simp only [if_true]
      split <;> simp_all

/-- A first response with a status other than 200, 202 and 0 to 3, or a transport
error, on a request that is not addressed to the agentless URL, asks for a retry. -/
theorem trySubmit_asks_retry {V : Type} (g : Globals) (t : Transport V) (r : Request V)
    (hu : r.URL ≠ g.agentlessURL) (hm : t.marshalErr r.Body = none)
    (hn : t.newRequestErr r.URL = none)
    (hd : (∃ e, t.Do 0 r = .error e) ∨
      ∃ s, t.Do 0 r = .ok s ∧ s ≠ 200 ∧ s ≠ 202 ∧ ¬ (0 ≤ s ∧ s ≤ 3)) :
    (trySubmit g t 0 r).1 = true := by
  rcases hd with ⟨e, he⟩ | ⟨s, hs, h200, h202, h03⟩
  · simp [trySubmit, hm, hn, he, agentlessRetry_transport_error g r 0 e hu]
  · rw [trySubmit_response g t 0 r s hm hn hs]
    simp [h200, h202, (agentlessRetry_status g r s hu).mpr h03]

/-! ## Submission: claims -/

/-- C1: a response with status 400, 401, 403 or 429 to a request that is not addressed
to the agentless URL should give `shouldRetry = false` and a single attempt. In
the code `agentlessRetry` answers `true` for each of the four statuses and
`submit` makes the second, agentless attempt. -/
theorem C1_non_retry_statuses_are_retried :
    ([400, 401, 403, 429].all fun s =>
        agentlessRetry exampleGlobals agentRequest s none
          && decide ((trySubmit exampleGlobals (statusTransport [s, s]) 0 agentRequest)
                = (true, some (.badStatus s)))
          && decide ((submit exampleGlobals (statusTransport [s, s]) agentRequest).attempts.length
                = 2)) = true
    ∧ (submit exampleGlobals (statusTransport [401, 401]) agentRequest).attempts.map Request.URL
        = [agentOptions.URL, exampleGlobals.agentlessURL] := by
  decide

/-- C2: a response status outside 200, 202, 400, 401, 403, 429 to a request that is
not addressed to the agentless URL should be followed by a second attempt at the
agentless URL. For status 3 the code makes the first attempt only and returns
its bad-status error. -/
theorem C2_status_three_is_not_retried :
    (3 : Int) ∉ [200, 202, 400, 401, 403, 429]
    ∧ agentRequest.URL ≠ exampleGlobals.agentlessURL
    ∧ trySubmit exampleGlobals (statusTransport [3, 202]) 0 agentRequest
        = (false, some (.badStatus 3))
    ∧ (submit exampleGlobals (statusTransport [3, 202]) agentRequest).attempts = [agentRequest]
    ∧ (submit exampleGlobals (statusTransport [3, 202]) agentRequest).err
        = some (.badStatus 3) := by
  decide

/-- C3: when the fallback attempt is made and fails, `submit` should return the error
of that second attempt. With a first response 500 and a second response 503 the
code makes both attempts and returns the bad-status error of the first, 500. -/
theorem C3_submit_returns_first_error :
    (submit exampleGlobals (statusTransport [500, 503]) agentRequest).attempts.length = 2
    ∧ (trySubmit exampleGlobals (statusTransport [500, 503]) 1
          (submit exampleGlobals (statusTransport [500, 503]) agentRequest).request).2
        = some (.badStatus 503)
    ∧ (submit exampleGlobals (statusTransport [500, 503]) agentRequest).err
        = some (.badStatus 500)
    ∧ (submit exampleGlobals (statusTransport [500, 503]) agentRequest).err
        ≠ some (.badStatus 503) := by
  decide

/-- C5: for a request whose URL is the agentless URL, `agentlessRetry` is false for
every outcome, `trySubmit` never asks for a retry, and `submit` makes exactly one
attempt, leaves the request as it is and returns that attempt's error. -/
theorem C5_agentless_request_single_attempt {V : Type} (g : Globals) (t : Transport V)
    (r : Request V) (h : r.URL = g.agentlessURL) :
    (∀ (s : Int) (e : Option String), agentlessRetry g r s e = false)
    ∧ (∀ n, (trySubmit g t n r).1 = false)
    ∧ (submit g t r).attempts = [r]
    ∧ (submit g t r).request = r
    ∧ (submit g t r).err = (trySubmit g t 0 r).2 := by
  have h0 := trySubmit_retry_agentless g t 0 r h
  refine ⟨fun s e => agentlessRetry_agentless g r s e h,
    fun n => trySubmit_retry_agentless g t n r h, ?_, ?_, ?_⟩ <;>
  rw [submit_no_retry g t r h0]

/-- C5 at the sample agentless request on a network that is down. -/
theorem C5_agentless_request_single_attempt_witness :
    agentlessRequest.URL = exampleGlobals.agentlessURL
    ∧ (∀ (s : Int) (e : Option String),
        agentlessRetry exampleGlobals agentlessRequest s e = false)
    ∧ (∀ n, (trySubmit exampleGlobals downTransport n agentlessRequest).1 = false)
    ∧ (submit exampleGlobals downTransport agentlessRequest).attempts = [agentlessRequest]
    ∧ (submit exampleGlobals downTransport agentlessRequest).request = agentlessRequest
    ∧ (submit exampleGlobals downTransport agentlessRequest).err
        = (trySubmit exampleGlobals downTransport 0 agentlessRequest).2 :=
  ⟨by decide, C5_agentless_request_single_attempt exampleGlobals downTransport agentlessRequest
    (by decide)⟩

/-- C6: when the body serialises and a response is received, `trySubmit` returns a nil
error exactly for status 200 or 202, then with `retry = false`; for every other
status it returns the bad-status error carrying that status. -/
theorem C6_trySubmit_success_iff_200_or_202 {V : Type} (g : Globals) (t : Transport V)
    (n : Nat) (r : Request V) (status : Int) (hm : t.marshalErr r.Body = none)
    (hn : t.newRequestErr r.URL = none) (hd : t.Do n r = .ok status) :
    ((trySubmit g t n r).2 = none ↔ (status = 200 ∨ status = 202))
    ∧ ((status = 200 ∨ status = 202) → trySubmit g t n r = (false, none))
    ∧ (¬ (status = 200 ∨ status = 202) →
        (trySubmit g t n r).2 = some (.badStatus status)) := by
  rw [trySubmit_response g t n r status hm hn hd]
  by_cases hs : status = 200 ∨ status = 202
  · have : ¬ (status ≠ 202 ∧ status ≠ 200) := by
      rcases hs with h | h <;> simp [h]
    simp [this, hs]
  · have : status ≠ 202 ∧ status ≠ 200 := by
      constructor <;> intro h <;> exact hs (by simp [h])
    simp [this, hs]

/-- C6 at the sample agent request answered with 202. -/
theorem C6_trySubmit_success_iff_200_or_202_witness :
    (statusTransport [202]).marshalErr agentRequest.Body = none
    ∧ (statusTransport [202]).newRequestErr agentRequest.URL = none
    ∧ (statusTransport [202]).Do 0 agentRequest = .ok 202
    ∧ (((trySubmit exampleGlobals (statusTransport [202]) 0 agentRequest).2 = none
          ↔ ((202 : Int) = 200 ∨ (202 : Int) = 202))
      ∧ (((202 : Int) = 200 ∨ (202 : Int) = 202) →
          trySubmit exampleGlobals (statusTransport [202]) 0 agentRequest = (false, none))
      ∧ (¬ ((202 : Int) = 200 ∨ (202 : Int) = 202) →
          (trySubmit exampleGlobals (statusTransport [202]) 0 agentRequest).2
            = some (.badStatus 202))) :=
  ⟨rfl, rfl, rfl, C6_trySubmit_success_iff_200_or_202 exampleGlobals (statusTransport [202]) 0
    agentRequest 202 rfl rfl rfl⟩


/-! ## Flush: claims settled by evaluation -/

/-- C4: a flush with dirty metrics in two namespaces should hand over one
generate-metrics request per namespace, each with the payload of its own
namespace. In the code the batch lists the same request pointer twice and the
payload found through it is the one stored last, so both entries carry the same
payload and the other namespace is not reported; this holds for either order of
the two namespaces in the map. -/
theorem C4_two_namespaces_share_one_request :
    (run exampleGlobals (twoNamespaces "tracers" "profilers") (World.zero Int agentOptions)).map
        (fun w => (w.spawned.getLast?, w.spawned.getLast?.map (reported w)))
      = some (some [3, 3, 2],
          some [{ Namespace := "profilers",
                  Series := [{ Metric := "samples", Points := [(11, 2)], Type_ := "count",
                               Tags := [], Common := false }] },
                { Namespace := "profilers",
                  Series := [{ Metric := "samples", Points := [(11, 2)], Type_ := "count",
                               Tags := [], Common := false }] }])
    ∧ (run exampleGlobals (twoNamespaces "profilers" "tracers") (World.zero Int agentOptions)).map
        (fun w => (w.spawned.getLast?, w.spawned.getLast?.map (reported w)))
      = some (some [3, 3, 2],
          some [{ Namespace := "tracers",
                  Series := [{ Metric := "samples", Points := [(11, 2)], Type_ := "count",
                               Tags := [], Common := false }] },
                { Namespace := "tracers",
                  Series := [{ Metric := "samples", Points := [(11, 2)], Type_ := "count",
                               Tags := [], Common := false }] }]) := by
  decide

/-- C9, as stated, fails: after a gauge has been drained by the first tick, the
second tick hands over the app-heartbeat request alone; no generate-metrics
request is built although the gauge is still stored with its value 5. -/
theorem C9_second_tick_reports_no_metrics :
    (run exampleGlobals gaugeThenTwoTicks (World.zero Int agentOptions)).map
        (fun w => (w.spawned.map (batchTypes w), w.heap.map (fun r => r.Body.RequestType),
          (lookupMetric w.c "tracers" (metricKey "spans" [])).map (fun m => (m.kind, m.value))))
      = some ([[.AppStarted, .DependenciesLoaded], [.GenerateMetrics, .AppHeartbeat],
               [.AppHeartbeat]],
              [.AppStarted, .DependenciesLoaded, .AppHeartbeat, .GenerateMetrics, .AppHeartbeat],
              some ("gauge", 5)) := by
  decide


/-! ## Heap and flush: lemmas -/

theorem set_of_getElem? {α : Type} (l : List α) (i : Nat) (a : α) (h : l[i]? = some a) :
    l.set i a = l := by
  induction l generalizing i with
  | nil => rfl
  | cons x xs ih =>
    cases i with
    | zero => simp at h; simp [h]
    | succ j => simp at h; simp [ih j h]

theorem map_set_same {α β : Type} (f : α → β) (l : List α) (i : Nat) (a b : α)
    (h : l[i]? = some a) (hf : f b = f a) : (l.set i b).map f = l.map f := by
  rw [List.map_set, hf, set_of_getElem? (l.map f) i (f a) (by simp [h])]

@[simp] theorem setPayload_c {V : Type} (w : World V) (r : Nat) (p : Payload V) :
    (w.setPayload r p).c = w.c := by
  unfold World.setPayload; split <;> rfl

@[simp] theorem setPayload_spawned {V : Type} (w : World V) (r : Nat) (p : Payload V) :
    (w.setPayload r p).spawned = w.spawned := by
  unfold World.setPayload; split <;> rfl

@[simp] theorem setPayload_length {V : Type} (w : World V) (r : Nat) (p : Payload V) :
    (w.setPayload r p).heap.length = w.heap.length := by
  unfold World.setPayload; split <;> simp

@[simp] theorem setPayload_seqs {V : Type} (w : World V) (r : Nat) (p : Payload V) :
    (w.setPayload r p).seqs = w.seqs := by
  unfold World.setPayload World.seqs
  split
  · next req h => exact map_set_same _ _ _ req _ h rfl
  · rfl

@[simp] theorem setPayload_types {V : Type} (w : World V) (r : Nat) (p : Payload V) :
    (w.setPayload r p).types = w.types := by
  unfold World.setPayload World.types
  split
  · next req h => exact map_set_same _ _ _ req _ h rfl
  · rfl

theorem setPayload_setPayload {V : Type} (w : World V) (r : Nat) (p q : Payload V) :
    (w.setPayload r p).setPayload r q = w.setPayload r q := by
  unfold World.setPayload
  cases h : w.heap[r]? with
  | none => simp [h]
  | some req =>
    have hr : r < w.heap.length := by
      rcases Nat.lt_or_ge r w.heap.length with h1 | h1
      · exact h1
      · rw [List.getElem?_eq_none h1] at h; cases h
    simp [List.getElem?_set, hr]

theorem flushMetrics_fold {V : Type} (mm : GoMap Namespace (GoMap String (metric V)))
    (r : Nat) (keys : List Namespace) (w : World V) (subs : List Nat) :
    keys.foldl
        (fun (acc : World V × List Nat) ns =>
          (acc.1.setPayload r (.Metrics (payloadOf mm ns)), acc.2 ++ [r]))
        (w, subs)
      = ((match keys.getLast? with
          | none => w
          | some ns => w.setPayload r (.Metrics (payloadOf mm ns))),
         subs ++ List.replicate keys.length r) := by
  induction keys generalizing w subs with
  | nil => simp
  | cons k ks ih =>
    rw [List.foldl_cons, ih]
    cases ks with
    | nil => simp
    | cons k2 ks2 =>
      have hl : (k :: k2 :: ks2).getLast? = (k2 :: ks2).getLast? := List.getLast?_cons_cons
      rw [hl]
      cases h : (k2 :: ks2).getLast? with
      | none => simp at h
      | some x =>
        simp only [setPayload_setPayload, List.length_cons, List.replicate_succ, Prod.mk.injEq,
          true_and, List.append_assoc, List.singleton_append]

@[simp] theorem newRequest_c {V : Type} (g : Globals) (now : Int) (t : RequestType) (w : World V) :
    (newRequest g now t w).1.c = { w.c with seqID := wrapInt64 (w.c.seqID + 1) } := rfl

@[simp] theorem newRequest_ptr {V : Type} (g : Globals) (now : Int) (t : RequestType)
    (w : World V) : (newRequest g now t w).2 = w.heap.length := rfl

@[simp] theorem newRequest_spawned {V : Type} (g : Globals) (now : Int) (t : RequestType)
    (w : World V) : (newRequest g now t w).1.spawned = w.spawned := rfl

@[simp] theorem newRequest_length {V : Type} (g : Globals) (now : Int) (t : RequestType)
    (w : World V) : (newRequest g now t w).1.heap.length = w.heap.length + 1 := by
  simp [newRequest]

@[simp] theorem newRequest_seqs {V : Type} (g : Globals) (now : Int) (t : RequestType)
    (w : World V) : (newRequest g now t w).1.seqs = w.seqs ++ [wrapInt64 (w.c.seqID + 1)] := by
  simp [newRequest, World.seqs]

@[simp] theorem newRequest_types {V : Type} (g : Globals) (now : Int) (t : RequestType)
    (w : World V) : (newRequest g now t w).1.types = w.types ++ [t] := by
  simp [newRequest, World.types]

theorem flushMetrics_eq {V : Type} (mm : GoMap Namespace (GoMap String (metric V)))
    (r : Nat) (w : World V) (subs : List Nat) :
    flushMetrics mm r w subs
      = ((match (mm.map Prod.fst).getLast? with
          | none => w
          | some ns => w.setPayload r (.Metrics (payloadOf mm ns))),
         subs ++ List.replicate mm.length r) := by
  unfold flushMetrics
  rw [flushMetrics_fold]
  simp

@[simp] theorem flushMetrics_c {V : Type} (mm : GoMap Namespace (GoMap String (metric V)))
    (r : Nat) (w : World V) (subs : List Nat) : (flushMetrics mm r w subs).1.c = w.c := by
  rw [flushMetrics_eq]; dsimp only; split <;> simp

@[simp] theorem flushMetrics_spawned {V : Type} (mm : GoMap Namespace (GoMap String (metric V)))
    (r : Nat) (w : World V) (subs : List Nat) :
    (flushMetrics mm r w subs).1.spawned = w.spawned := by
  rw [flushMetrics_eq]; dsimp only; split <;> simp

@[simp] theorem flushMetrics_seqs {V : Type} (mm : GoMap Namespace (GoMap String (metric V)))
    (r : Nat) (w : World V) (subs : List Nat) : (flushMetrics mm r w subs).1.seqs = w.seqs := by
  rw [flushMetrics_eq]; dsimp only; split <;> simp

@[simp] theorem flushMetrics_types {V : Type} (mm : GoMap Namespace (GoMap String (metric V)))
    (r : Nat) (w : World V) (subs : List Nat) :
    (flushMetrics mm r w subs).1.types = w.types := by
  rw [flushMetrics_eq]; dsimp only; split <;> simp

@[simp] theorem flushMetrics_length {V : Type} (mm : GoMap Namespace (GoMap String (metric V)))
    (r : Nat) (w : World V) (subs : List Nat) :
    (flushMetrics mm r w subs).1.heap.length = w.heap.length := by
  rw [flushMetrics_eq]; dsimp only; split <;> simp

@[simp] theorem flushMetrics_batch {V : Type} (mm : GoMap Namespace (GoMap String (metric V)))
    (r : Nat) (w : World V) (subs : List Nat) :
    (flushMetrics mm r w subs).2 = subs ++ List.replicate mm.length r := by
  rw [flushMetrics_eq]

theorem flush_c {V : Type} (g : Globals) (now : Int) (w : World V) :
    (flush g now w).c =
      { w.c with requests := [], newMetrics := false,
                 seqID := if w.c.newMetrics then wrapInt64 (w.c.seqID + 1) else w.c.seqID } := by
  unfold flush
  cases h : w.c.newMetrics <;> simp [h]

theorem flush_seqs {V : Type} (g : Globals) (now : Int) (w : World V) :
    (flush g now w).seqs =
      if w.c.newMetrics then w.seqs ++ [wrapInt64 (w.c.seqID + 1)] else w.seqs := by
  unfold flush
  cases h : w.c.newMetrics
  · simp [h, World.seqs]
  · simp only [h, if_true]
    change (flushMetrics _ _ _ _).1.seqs = _
    simp
    rfl

theorem flush_types {V : Type} (g : Globals) (now : Int) (w : World V) :
    (flush g now w).types =
      if w.c.newMetrics then w.types ++ [.GenerateMetrics] else w.types := by
  unfold flush
  cases h : w.c.newMetrics
  · simp [h, World.types]
  · simp only [h, if_true]
    change (flushMetrics _ _ _ _).1.types = _
    simp
    rfl

theorem flush_spawned {V : Type} (g : Globals) (now : Int) (w : World V) :
    (flush g now w).spawned =
      w.spawned ++
        [(if w.c.newMetrics then List.replicate (w.c.metrics.getD []).length w.heap.length
          else []) ++ w.c.requests] := by
  unfold flush
  cases h : w.c.newMetrics <;> simp [h]

/-! ## Sequence numbers -/

theorem wrapInt64_succ (n : Int) : wrapInt64 (wrapInt64 n + 1) = wrapInt64 (n + 1) := by
  unfold wrapInt64
  omega

theorem wrapInt64_of_lt (n : Int) (h0 : -2 ^ 63 ≤ n) (h : n < 2 ^ 63) : wrapInt64 n = n := by
  unfold wrapInt64
  omega

theorem seqOK_bump (s : Int) (l : List Int) (h : seqOK s l) :
    seqOK (wrapInt64 (s + 1)) (l ++ [wrapInt64 (s + 1)]) := by
  obtain ⟨h1, h2⟩ := h
  have hs : wrapInt64 (s + 1) = wrapInt64 ((l.length : Int) + 1) := by
    rw [h1, wrapInt64_succ]
  constructor
  · rw [hs]; simp
  · rw [List.length_append, List.length_singleton, List.range_succ, List.map_append, ← h2, hs]
    simp

theorem SeqOK_newRequest {V : Type} (g : Globals) (now : Int) (t : RequestType) (w : World V)
    (h : w.SeqOK) : (newRequest g now t w).1.SeqOK := by
  unfold World.SeqOK
  rw [newRequest_seqs, newRequest_c]
  exact seqOK_bump _ _ h

theorem SeqOK_setPayload {V : Type} (w : World V) (r : Nat) (p : Payload V) (h : w.SeqOK) :
    (w.setPayload r p).SeqOK := by
  unfold World.SeqOK
  rw [setPayload_seqs, setPayload_c]
  exact h

theorem SeqOK_flush {V : Type} (g : Globals) (now : Int) (w : World V) (h : w.SeqOK) :
    (flush g now w).SeqOK := by
  unfold World.SeqOK
  rw [flush_seqs, flush_c]
  cases hn : w.c.newMetrics
  · exact h
  · exact seqOK_bump _ _ h

theorem SeqOK_scheduleSubmit {V : Type} (w : World V) (r : Nat) (h : w.SeqOK) :
    (scheduleSubmit w r).SeqOK := h

theorem record_eq {V : Type} [Zero V] (kind : metricKind) (upd : V → V) (now : Int)
    (ns : Namespace) (name : String) (tags : List String) (common : Bool) (w : World V)
    (mm : GoMap Namespace (GoMap String (metric V))) (h : w.c.metrics = some mm) :
    ∃ mm1, record kind upd now ns name tags common w
      = some { w with c := { w.c with metrics := some mm1, newMetrics := true } } := by
  simp [record, h]

theorem record_nil {V : Type} [Zero V] (kind : metricKind) (upd : V → V) (now : Int)
    (ns : Namespace) (name : String) (tags : List String) (common : Bool) (w : World V)
    (h : w.c.metrics = none) : record kind upd now ns name tags common w = none := by
  simp [record, h]

theorem record_inv {V : Type} [Zero V] (kind : metricKind) (upd : V → V) (now : Int)
    (ns : Namespace) (name : String) (tags : List String) (common : Bool) (w w1 : World V)
    (h : record kind upd now ns name tags common w = some w1) (hs : w.SeqOK) (hl : w.Live) :
    w1.SeqOK ∧ w1.Live := by
  cases hm : w.c.metrics with
  | none => rw [record_nil _ _ _ _ _ _ _ _ hm] at h; cases h
  | some mm =>
    obtain ⟨mm1, h1⟩ := record_eq kind upd now ns name tags common w mm hm
    rw [h1] at h
    cases h
    refine ⟨hs, ?_⟩
    intro hst
    exact ⟨rfl, (hl hst).2⟩

theorem record_total {V : Type} [Zero V] (kind : metricKind) (upd : V → V) (now : Int)
    (ns : Namespace) (name : String) (tags : List String) (common : Bool) (w : World V)
    (h : w.c.metrics.isSome = true) :
    ∃ w1, record kind upd now ns name tags common w = some w1 := by
  cases hm : w.c.metrics with
  | none => rw [hm] at h; cases h
  | some mm =>
    obtain ⟨mm1, h1⟩ := record_eq kind upd now ns name tags common w mm hm
    exact ⟨_, h1⟩

theorem SeqOK_startRequests {V : Type} (g : Globals) (env : StartEnv)
    (configuration : List Configuration) (w : World V) (h : w.SeqOK) :
    (startRequests g env configuration w).SeqOK := by
  unfold startRequests
  have h1 := SeqOK_scheduleSubmit _ (newRequest g env.now .AppStarted w).2
    (SeqOK_setPayload _ (newRequest g env.now .AppStarted w).2
      (Payload.AppStarted configuration
        { AppSec := { Version := g.versionTag, Enabled := env.appsecEnabled },
          Profiler := { Version := g.versionTag, Enabled := false } })
      (SeqOK_newRequest g env.now .AppStarted w h))
  by_cases hc : env.collectDependencies = true
  · simp only [hc, if_true]
    exact SeqOK_scheduleSubmit _ _ (SeqOK_setPayload _ _ _
      (SeqOK_newRequest g env.now .DependenciesLoaded _ h1))
  · simp only [hc]
    exact h1

theorem startRequests_c {V : Type} (g : Globals) (env : StartEnv)
    (configuration : List Configuration) (w : World V) :
    (startRequests g env configuration w).c =
      { w.c with
        seqID := if env.collectDependencies then wrapInt64 (wrapInt64 (w.c.seqID + 1) + 1)
                 else wrapInt64 (w.c.seqID + 1),
        requests := if env.collectDependencies
                    then w.c.requests ++ [w.heap.length] ++ [w.heap.length + 1]
                    else w.c.requests ++ [w.heap.length] } := by
  unfold startRequests
  cases hc : env.collectDependencies <;> simp [scheduleSubmit]

theorem startSession_inv {V : Type} (g : Globals) (env : StartEnv)
    (configuration : List Configuration) (w : World V) (hs : w.SeqOK) :
    (startSession g env configuration w).SeqOK ∧ (startSession g env configuration w).Live := by
  unfold startSession armHeartbeat
  refine ⟨?_, fun _ => ⟨?_, rfl⟩⟩
  · exact SeqOK_flush g env.now _ (SeqOK_startRequests g env configuration _ hs)
  · simp [flush_c, startRequests_c]

theorem Start_inv {V : Type} (g : Globals) (env : StartEnv) (configuration : List Configuration)
    (w : World V) (hs : w.SeqOK) (hl : w.Live) :
    (Start g env configuration w).SeqOK ∧ (Start g env configuration w).Live := by
  unfold Start
  by_cases hd : env.disabled = true
  · rw [if_pos hd]; exact ⟨hs, hl⟩
  rw [if_neg hd]
  by_cases hst : w.c.started = true
  · rw [if_pos hst]; exact ⟨hs, hl⟩
  rw [if_neg hst]
  by_cases hf : (env.fallbackOps w.c.toOptions).2.isSome = true
  · simp only [hf, if_true]
    exact ⟨hs, fun h => absurd h hst⟩
  · simp only [hf]
    exact startSession_inv g env configuration _ hs

theorem Stop_inv {V : Type} (g : Globals) (now : Int) (w w1 : World V)
    (h : Stop g now w = some w1) (hs : w.SeqOK) (hl : w.Live) : w1.SeqOK ∧ w1.Live := by
  unfold Stop at h
  by_cases hst : w.c.started = true
  · simp only [hst, Bool.not_true] at h
    cases ht : w.c.heartbeatT with
    | none => simp [ht] at h
    | some t =>
      simp only [ht, Bool.false_eq_true, if_false, Option.some.injEq] at h
      subst h
      refine ⟨SeqOK_flush g now _ (SeqOK_scheduleSubmit _ _ (SeqOK_newRequest g now _ _ hs)), ?_⟩
      intro h1
      simp [flush_c, scheduleSubmit] at h1
  · simp only [hst, Bool.not_false, if_true, Option.some.injEq] at h
    subst h; exact ⟨hs, hl⟩

theorem Stop_total {V : Type} (g : Globals) (now : Int) (w : World V) (hl : w.Live) :
    ∃ w1, Stop g now w = some w1 := by
  unfold Stop
  by_cases hst : w.c.started = true
  · have := (hl hst).2
    cases ht : w.c.heartbeatT with
    | none => rw [ht] at this; cases this
    | some t => simp [hst]
  · simp [hst]

theorem backgroundHeartbeat_inv {V : Type} (g : Globals) (now : Int) (w w1 : World V)
    (h : backgroundHeartbeat g now w = some w1) (hs : w.SeqOK) (hl : w.Live) :
    w1.SeqOK ∧ w1.Live := by
  unfold backgroundHeartbeat at h
  by_cases hst : w.c.started = true
  · simp only [hst, Bool.not_true, Bool.false_eq_true, if_false] at h
    have hseq := SeqOK_flush g now _
      (SeqOK_scheduleSubmit _ (newRequest g now .AppHeartbeat w).2
        (SeqOK_newRequest g now .AppHeartbeat w hs))
    split at h
    · cases h
    · cases h
      refine ⟨hseq, fun _ => ⟨?_, rfl⟩⟩
      simp [flush_c, scheduleSubmit, (hl hst).1]
  · simp only [hst, Bool.not_false, if_true, Option.some.injEq] at h
    subst h; exact ⟨hs, hl⟩

theorem backgroundHeartbeat_total {V : Type} (g : Globals) (now : Int) (w : World V)
    (hl : w.Live) : ∃ w1, backgroundHeartbeat g now w = some w1 := by
  unfold backgroundHeartbeat
  by_cases hst : w.c.started = true
  · have := (hl hst).2
    cases ht : w.c.heartbeatT with
    | none => rw [ht] at this; cases this
    | some t => simp [hst, flush_c, scheduleSubmit, ht]
  · simp [hst]

theorem Gauge_inv {V : Type} [Zero V] (now : Int) (ns : Namespace) (name : String) (value : V)
    (tags : List String) (common : Bool) (w w1 : World V)
    (h : Gauge now ns name value tags common w = some w1) (hs : w.SeqOK) (hl : w.Live) :
    w1.SeqOK ∧ w1.Live := by
  unfold Gauge at h
  by_cases hst : w.c.started = true
  · simp only [hst, Bool.not_true, Bool.false_eq_true, if_false] at h
    exact record_inv _ _ _ _ _ _ _ _ _ h hs hl
  · simp only [hst, Bool.not_false, if_true, Option.some.injEq] at h
    subst h; exact ⟨hs, hl⟩

theorem Count_inv {V : Type} [Zero V] [Add V] (now : Int) (ns : Namespace) (name : String)
    (value : V) (tags : List String) (common : Bool) (w w1 : World V)
    (h : Count now ns name value tags common w = some w1) (hs : w.SeqOK) (hl : w.Live) :
    w1.SeqOK ∧ w1.Live := by
  unfold Count at h
  by_cases hst : w.c.started = true
  · simp only [hst, Bool.not_true, Bool.false_eq_true, if_false] at h
    exact record_inv _ _ _ _ _ _ _ _ _ h hs hl
  · simp only [hst, Bool.not_false, if_true, Option.some.injEq] at h
    subst h; exact ⟨hs, hl⟩

theorem Gauge_total {V : Type} [Zero V] (now : Int) (ns : Namespace) (name : String) (value : V)
    (tags : List String) (common : Bool) (w : World V) (hl : w.Live) :
    ∃ w1, Gauge now ns name value tags common w = some w1 := by
  unfold Gauge
  by_cases hst : w.c.started = true
  · simp only [hst, Bool.not_true, Bool.false_eq_true, if_false]
    exact record_total _ _ _ _ _ _ _ _ (hl hst).1
  · simp [hst]

theorem Count_total {V : Type} [Zero V] [Add V] (now : Int) (ns : Namespace) (name : String)
    (value : V) (tags : List String) (common : Bool) (w : World V) (hl : w.Live) :
    ∃ w1, Count now ns name value tags common w = some w1 := by
  unfold Count
  by_cases hst : w.c.started = true
  · simp only [hst, Bool.not_true, Bool.false_eq_true, if_false]
    exact record_total _ _ _ _ _ _ _ _ (hl hst).1
  · simp [hst]

theorem step_inv {V : Type} [Zero V] [Add V] (g : Globals) (op : Op V) (w w1 : World V)
    (h : step g op w = some w1) (hs : w.SeqOK) (hl : w.Live) : w1.SeqOK ∧ w1.Live := by
  cases op with
  | Start env configuration =>
    simp only [step, Option.some.injEq] at h
    subst h; exact Start_inv g env configuration w hs hl
  | Stop now => exact Stop_inv g now w w1 h hs hl
  | Gauge now ns name value tags common => exact Gauge_inv _ _ _ _ _ _ _ _ h hs hl
  | Count now ns name value tags common => exact Count_inv _ _ _ _ _ _ _ _ h hs hl
  | Heartbeat now => exact backgroundHeartbeat_inv g now w w1 h hs hl

theorem step_total {V : Type} [Zero V] [Add V] (g : Globals) (op : Op V) (w : World V)
    (hl : w.Live) : ∃ w1, step g op w = some w1 := by
  cases op with
  | Start env configuration => exact ⟨_, rfl⟩
  | Stop now => exact Stop_total g now w hl
  | Gauge now ns name value tags common => exact Gauge_total _ _ _ _ _ _ _ hl
  | Count now ns name value tags common => exact Count_total _ _ _ _ _ _ _ hl
  | Heartbeat now => exact backgroundHeartbeat_total g now w hl

theorem run_inv {V : Type} [Zero V] [Add V] (g : Globals) (ops : List (Op V)) (w : World V)
    (hs : w.SeqOK) (hl : w.Live) : ∃ w1, run g ops w = some w1 ∧ w1.SeqOK ∧ w1.Live := by
  induction ops generalizing w with
  | nil => exact ⟨w, rfl, hs, hl⟩
  | cons op ops ih =>
    obtain ⟨w1, h1⟩ := step_total g op w hl
    obtain ⟨hs1, hl1⟩ := step_inv g op w w1 h1 hs hl
    obtain ⟨w2, h2, hs2, hl2⟩ := ih w1 hs1 hl1
    exact ⟨w2, by simp [run, h1, h2], hs2, hl2⟩

theorem zero_inv (V : Type) (o : Options) : (World.zero V o).SeqOK ∧ (World.zero V o).Live := by
  refine ⟨⟨?_, ?_⟩, ?_⟩
  · simp [World.zero, World.seqs, wrapInt64]
  · simp [World.zero, World.seqs]
  · intro h; simp [World.zero] at h

theorem seqOK_getElem? (s : Int) (l : List Int) (h : seqOK s l) (i : Nat) (x : Int)
    (hx : l[i]? = some x) : x = wrapInt64 ((i : Int) + 1) := by
  have h2 := h.2
  rw [h2] at hx
  simp only [List.getElem?_map, Option.map_eq_some'] at hx
  obtain ⟨a, ha, rfl⟩ := hx
  rw [List.getElem?_range] at ha
  · cases ha; rfl
  · by_contra hcon
    rw [List.getElem?_eq_none (by simpa using Nat.le_of_not_lt hcon)] at ha
    cases ha

/-- C10: from the zero-value client every sequence of Start, Stop, Gauge, Count and
heartbeat ticks runs to a world in which the counter equals the number of
requests built and the request built `i`-th (counting from zero) carries the
sequence number `i + 1`, in `int64` arithmetic; below `2 ^ 63` this is `i + 1`
itself. So the first request carries 1, each later one carries one more than
its predecessor, and neither Stop nor a later Start resets the counter. Each
further call of `newRequest` hands out the next number. -/
theorem C10_sequence_numbers_count_up {V : Type} [Zero V] [Add V] (g : Globals) (o : Options)
    (ops : List (Op V)) :
    ∃ w, run g ops (World.zero V o) = some w
      ∧ w.c.seqID = wrapInt64 w.heap.length
      ∧ (∀ (i : Nat) (r : Request V), w.heap[i]? = some r →
          r.Body.SeqID = wrapInt64 ((i : Int) + 1)
          ∧ ((i : Int) + 1 < 2 ^ 63 → r.Body.SeqID = (i : Int) + 1))
      ∧ (∀ (now : Int) (t : RequestType),
          ((newRequest g now t w).1.deref (newRequest g now t w).2).map
              (fun r => r.Body.SeqID)
            = some (wrapInt64 ((w.heap.length : Int) + 1))) := by
  obtain ⟨hs0, hl0⟩ := zero_inv V o
  obtain ⟨w, hrun, hs, _⟩ := run_inv g ops (World.zero V o) hs0 hl0
  refine ⟨w, hrun, ?_, ?_, ?_⟩
  · have := hs.1
    simpa [World.seqs] using this
  · intro i r hr
    have hx : w.seqs[i]? = some r.Body.SeqID := by simp [World.seqs, hr]
    have h1 := seqOK_getElem? _ _ hs i _ hx
    refine ⟨h1, fun hlt => ?_⟩
    rw [h1]
    exact wrapInt64_of_lt _ (by omega) hlt
  · intro now t
    have h1 : w.c.seqID = wrapInt64 w.heap.length := by
      have := hs.1
      simpa [World.seqs] using this
    simp [newRequest, World.deref, h1, wrapInt64_succ]

/-! ## Metric store: lemmas -/

theorem lookup_map_replace {K A : Type} [BEq K] [LawfulBEq K] (m : GoMap K A) (k : K) (a : A)
    (h : m.any (fun e => e.1 == k) = true) :
    List.lookup k (m.map (fun e => if e.1 == k then (k, a) else e)) = some a := by
  induction m with
  | nil => simp at h
  | cons e es ih =>
    obtain ⟨k0, a0⟩ := e
    by_cases hk : k0 = k
    · subst hk
      simp only [List.map_cons, beq_self_eq_true, if_true, List.lookup_cons]
    · have hk2 : (k == k0) = false := by simpa using fun h2 => hk h2.symm
      have hk3 : (k0 == k) = false := by simpa using hk
      have hrest : es.any (fun e => e.1 == k) = true := by simpa [hk3] using h
      simp only [List.map_cons, hk3, Bool.false_eq_true, if_false, List.lookup_cons, hk2]
      exact ih hrest

theorem lookup_append_new {K A : Type} [BEq K] [LawfulBEq K] (m : GoMap K A) (k : K) (a : A)
    (h : m.any (fun e => e.1 == k) = false) : List.lookup k (m ++ [(k, a)]) = some a := by
  induction m with
  | nil => simp [List.lookup]
  | cons e es ih =>
    obtain ⟨k0, a0⟩ := e
    simp only [List.any_cons, Bool.or_eq_false_iff] at h
    have hk2 : (k == k0) = false := by
      have := h.1
      simp only [beq_eq_false_iff_ne, ne_eq] at this ⊢
      exact fun h2 => this h2.symm
    simp only [List.cons_append, List.lookup_cons, hk2]
    exact ih h.2

theorem lookup_set_self {K A : Type} [BEq K] [LawfulBEq K] (m : GoMap K A) (k : K) (a : A) :
    List.lookup k (GoMap.set m k a) = some a := by
  unfold GoMap.set
  cases h : m.any (fun e => e.1 == k)
  · simp only [Bool.false_eq_true, if_false]; exact lookup_append_new m k a h
  · simp only [if_true]; exact lookup_map_replace m k a h

theorem lookup_set_ne {K A : Type} [BEq K] [LawfulBEq K] (m : GoMap K A) (k k1 : K) (a : A)
    (hne : k1 ≠ k) : List.lookup k1 (GoMap.set m k a) = List.lookup k1 m := by
  have hk : (k1 == k) = false := by simpa using hne
  unfold GoMap.set
  cases h : m.any (fun e => e.1 == k)
  · simp only [Bool.false_eq_true, if_false]
    clear h
    induction m with
    | nil => simp only [List.nil_append, List.lookup_cons, hk, List.lookup_nil]
    | cons e es ih =>
      obtain ⟨k0, a0⟩ := e
      cases h0 : (k1 == k0) <;> simp only [List.cons_append, List.lookup_cons, h0, ih]
  · simp only [if_true]
    clear h
    induction m with
    | nil => simp
    | cons e es ih =>
      obtain ⟨k0, a0⟩ := e
      by_cases hk0 : k0 = k
      · subst hk0
        simp only [List.map_cons, beq_self_eq_true, if_true, List.lookup_cons, hk, ih]
      · have hk3 : (k0 == k) = false := by simpa using hk0
        cases h0 : (k1 == k0) <;>
          simp only [List.map_cons, hk3, Bool.false_eq_true, if_false, List.lookup_cons, h0, ih]

theorem mem_of_lookup {K A : Type} [BEq K] [LawfulBEq K] (m : GoMap K A) (k : K) (a : A)
    (h : List.lookup k m = some a) : (k, a) ∈ m := by
  induction m with
  | nil => simp [List.lookup] at h
  | cons e es ih =>
    obtain ⟨k0, a0⟩ := e
    cases h0 : (k == k0)
    · simp only [List.lookup_cons, h0] at h
      exact List.mem_cons_of_mem _ (ih h)
    · simp only [List.lookup_cons, h0, Option.some.injEq] at h
      have : k = k0 := by simpa using h0
      subst this; subst h
      exact List.mem_cons_self _ _

/-- What `record` leaves under the key it works on, and that it leaves the rest of
the client as it is. -/
theorem record_spec {V : Type} [Zero V] (kind : metricKind) (upd : V → V) (now : Int)
    (ns : Namespace) (name : String) (tags : List String) (common : Bool) (w : World V)
    (hm : w.c.metrics.isSome = true) :
    ∃ w1 mm1, record kind upd now ns name tags common w = some w1
      ∧ w1 = { w with c := { w.c with metrics := some mm1, newMetrics := true } }
      ∧ lookupMetric w1.c ns (metricKey name tags)
          = some { ((lookupMetric w.c ns (metricKey name tags)).getD
                      (newmetric name kind tags common)) with
                   value := upd ((lookupMetric w.c ns (metricKey name tags)).getD
                      (newmetric name kind tags common)).value,
                   ts := now } := by
  cases hmm : w.c.metrics with
  | none => rw [hmm] at hm; cases hm
  | some mm =>
    cases hns : List.lookup ns mm with
    | none =>
      refine ⟨_, _, by simp only [record, hmm]; rfl, rfl, ?_⟩
      simp [lookupMetric, hmm, hns, lookup_set_self, List.lookup]
    | some inner =>
      refine ⟨_, _, by simp only [record, hmm]; rfl, rfl, ?_⟩
      cases hk : List.lookup (metricKey name tags) inner <;>
        simp [lookupMetric, hmm, hns, hk, lookup_set_self]

theorem lookupMetric_congr {V : Type} (c1 c2 : Client V) (h : c1.metrics = c2.metrics)
    (ns : Namespace) (key : String) : lookupMetric c1 ns key = lookupMetric c2 ns key := by
  unfold lookupMetric; rw [h]

theorem flush_metrics {V : Type} (g : Globals) (now : Int) (w : World V) :
    (flush g now w).c.metrics = w.c.metrics := by
  rw [flush_c]

theorem backgroundHeartbeat_started {V : Type} (g : Globals) (now : Int) (w : World V)
    (hst : w.c.started = true) (ht : w.c.heartbeatT.isSome = true) :
    backgroundHeartbeat g now w =
      some { flush g now (scheduleSubmit (newRequest g now .AppHeartbeat w).1 w.heap.length) with
             c := { (flush g now
                      (scheduleSubmit (newRequest g now .AppHeartbeat w).1 w.heap.length)).c with
                    heartbeatT := some { d := w.c.heartbeatInterval, active := true } } } := by
  cases hT : w.c.heartbeatT with
  | none => rw [hT] at ht; cases ht
  | some t =>
    unfold backgroundHeartbeat
    simp [hst, flush_c, scheduleSubmit, hT]

theorem backgroundHeartbeat_frame {V : Type} (g : Globals) (now : Int) (w : World V)
    (hst : w.c.started = true) (ht : w.c.heartbeatT.isSome = true) :
    ∃ wb, backgroundHeartbeat g now w = some wb ∧ wb.c.started = true
      ∧ wb.c.metrics = w.c.metrics ∧ wb.c.heartbeatT.isSome = true := by
  refine ⟨_, backgroundHeartbeat_started g now w hst ht, ?_, ?_, rfl⟩
  · simp only [flush_c]; exact hst
  · simp only [flush_c]; rfl

/-- A session on one key, run from a started client with its map and timer in place,
completes, leaves the client started, and leaves under the key the kind and
value that `afterCalls` computes from the values of the calls. -/
theorem runKey_spec {V : Type} [Zero V] (g : Globals) (kind : metricKind) (f : V → V → V)
    (ns : Namespace) (name : String) (tags : List String)
    (call : Int → V → Bool → World V → Option (World V))
    (hcall : ∀ now x common w, call now x common w =
      if !w.c.started then some w else record kind (f x) now ns name tags common w)
    (ops : List (KeyOp V)) (w : World V) (hst : w.c.started = true)
    (hm : w.c.metrics.isSome = true) (ht : w.c.heartbeatT.isSome = true) :
    ∃ w1, runKey g call ops w = some w1 ∧ w1.c.started = true ∧ w1.c.metrics.isSome = true
      ∧ w1.c.heartbeatT.isSome = true
      ∧ (lookupMetric w1.c ns (metricKey name tags)).map (fun m => (m.kind, m.value))
          = afterCalls kind f (callValues ops)
              ((lookupMetric w.c ns (metricKey name tags)).map (fun m => (m.kind, m.value))) := by
  induction ops generalizing w with
  | nil => exact ⟨w, rfl, hst, hm, ht, rfl⟩
  | cons op ops ih =>
    cases op with
    | call now x common =>
      obtain ⟨w1, mm1, h1, hw1, hl⟩ := record_spec kind (f x) now ns name tags common w hm
      have hc : call now x common w = some w1 := by rw [hcall, hst]; simpa using h1
      obtain ⟨w2, h2, hst2, hm2, ht2, hl2⟩ := ih w1 (by rw [hw1]; exact hst) (by rw [hw1]; rfl)
        (by rw [hw1]; exact ht)
      refine ⟨w2, by simp only [runKey, hc, h2], hst2, hm2, ht2, ?_⟩
      rw [hl2, hl]
      cases hold : lookupMetric w.c ns (metricKey name tags) with
      | none => simp [callValues, afterCalls, newmetric]
      | some m => simp [callValues, afterCalls]
    | flush now =>
      obtain ⟨w2, h2, hst2, hm2, ht2, hl2⟩ := ih (flush g now w)
        (by rw [flush_c]; exact hst) (by rw [flush_c]; exact hm) (by rw [flush_c]; exact ht)
      refine ⟨w2, by simp only [runKey, h2], hst2, hm2, ht2, ?_⟩
      rw [hl2, lookupMetric_congr _ _ (flush_metrics g now w)]
      rfl
    | tick now =>
      obtain ⟨wb, hb, hstb, hmb, htb⟩ := backgroundHeartbeat_frame g now w hst ht
      obtain ⟨w2, h2, hst2, hm2, ht2, hl2⟩ := ih wb hstb (by rw [hmb]; exact hm) htb
      refine ⟨w2, by simp only [runKey, hb, h2], hst2, hm2, ht2, ?_⟩
      rw [hl2, lookupMetric_congr _ _ hmb]
      rfl

theorem afterCalls_cons_none {V : Type} [Zero V] (kind : metricKind) (f : V → V → V) (v : V)
    (vs : List V) :
    afterCalls kind f (v :: vs) none = afterCalls kind f vs (some (kind, f v 0)) := rfl

theorem afterCalls_cons_some {V : Type} [Zero V] (kind : metricKind) (f : V → V → V) (v : V)
    (vs : List V) (k : metricKind) (old : V) :
    afterCalls kind f (v :: vs) (some (k, old)) = afterCalls kind f vs (some (k, f v old)) := rfl

theorem afterCalls_gauge {V : Type} [Zero V] (kind : metricKind) (vs : List V) (v : V)
    (st : Option (metricKind × V)) (hv : vs.getLast? = some v) :
    afterCalls kind (fun x _ => x) vs st = some ((st.map Prod.fst).getD kind, v) := by
  induction vs generalizing st with
  | nil => simp at hv
  | cons x xs ih =>
    cases xs with
    | nil =>
      simp only [List.getLast?_singleton, Option.some.injEq] at hv
      subst hv
      cases st with
      | none => simp [afterCalls]
      | some p => obtain ⟨k, old⟩ := p; simp [afterCalls]
    | cons y ys =>
      have hv2 : (y :: ys).getLast? = some v := by
        rw [← hv]; exact List.getLast?_cons_cons.symm
      cases st with
      | none => rw [afterCalls_cons_none, ih _ hv2]; rfl
      | some p => obtain ⟨k, old⟩ := p; rw [afterCalls_cons_some, ih _ hv2]; rfl

theorem afterCalls_count {V : Type} [Zero V] [Add V] (kind : metricKind) (vs : List V)
    (st : Option (metricKind × V)) (hne : vs ≠ []) :
    afterCalls kind (fun x old => old + x) vs st
      = some ((st.map Prod.fst).getD kind,
              vs.foldl (fun acc d => acc + d) ((st.map Prod.snd).getD 0)) := by
  induction vs generalizing st with
  | nil => exact absurd rfl hne
  | cons x xs ih =>
    cases xs with
    | nil =>
      cases st with
      | none => simp [afterCalls]
      | some p => obtain ⟨k, old⟩ := p; simp [afterCalls]
    | cons y ys =>
      cases st with
      | none => rw [afterCalls_cons_none, ih _ (by simp)]; rfl
      | some p => obtain ⟨k, old⟩ := p; rw [afterCalls_cons_some, ih _ (by simp)]; rfl

theorem series_mem_payloadOf {V : Type} (c : Client V) (ns : Namespace) (key : String)
    (m : metric V) (h : lookupMetric c ns key = some m) :
    seriesOf m ∈ (payloadOf (c.metrics.getD []) ns).Series := by
  unfold lookupMetric at h
  cases hmm : c.metrics with
  | none => simp [hmm] at h
  | some mm =>
    simp only [hmm] at h
    cases hns : List.lookup ns mm with
    | none => simp [hns] at h
    | some inner =>
      simp only [hns] at h
      have hmem := mem_of_lookup inner key m h
      simp only [payloadOf, Option.getD_some, hns, List.mem_map]
      exact ⟨(key, m), hmem, rfl⟩

/-- The request that a flush of dirty metrics builds carries, once the flush is
over, the payload of the namespace that the loop visited last. -/
theorem flush_generated {V : Type} (g : Globals) (now : Int) (w : World V)
    (hn : w.c.newMetrics = true) :
    ((flush g now w).deref w.heap.length).map (fun r => r.Body.Payload)
      = some (match ((w.c.metrics.getD []).map Prod.fst).getLast? with
          | none => .nil
          | some nsl => .Metrics (payloadOf (w.c.metrics.getD []) nsl)) := by
  unfold flush
  simp only [hn, if_true, flushMetrics_eq, newRequest_ptr, newRequest_c]
  cases hl : ((w.c.metrics.getD []).map Prod.fst).getLast? with
  | none => simp [World.deref, newRequest]
  | some nsl => simp [World.deref, newRequest, World.setPayload]

theorem flush_clean_heap {V : Type} (g : Globals) (now : Int) (w : World V)
    (hn : w.c.newMetrics = false) : (flush g now w).heap = w.heap := by
  unfold flush
  simp [hn]

/-- Every generate-metrics payload that the next flush builds and that names the
namespace of a stored metric holds the `Series` entry of that metric. -/
theorem flush_reports_stored {V : Type} (g : Globals) (now : Int) (w : World V)
    (ns : Namespace) (key : String) (m : metric V) (pm : Metrics V)
    (h : lookupMetric w.c ns key = some m)
    (hp : ((flush g now w).deref w.heap.length).map (fun r => r.Body.Payload)
            = some (.Metrics pm))
    (hns : pm.Namespace = ns) : seriesOf m ∈ pm.Series := by
  cases hn : w.c.newMetrics with
  | false =>
    rw [World.deref, flush_clean_heap g now w hn] at hp
    simp at hp
  | true =>
    rw [flush_generated g now w hn] at hp
    cases hl : ((w.c.metrics.getD []).map Prod.fst).getLast? with
    | none => simp [hl] at hp
    | some nsl =>
      simp only [hl, Option.some.injEq, Payload.Metrics.injEq] at hp
      subst hp
      have : nsl = ns := hns
      subst this
      exact series_mem_payloadOf w.c nsl key m h

/-- With dirty metrics in exactly one namespace a flush hands over one
generate-metrics request, ahead of the queued requests, whose payload names
the namespace and holds one `Series` entry per metric of the namespace. -/
theorem flush_single_namespace {V : Type} (g : Globals) (now : Int) (w : World V)
    (ns : Namespace) (inner : GoMap String (metric V)) (hn : w.c.newMetrics = true)
    (hm : w.c.metrics = some [(ns, inner)]) :
    (flush g now w).spawned = w.spawned ++ [w.heap.length :: w.c.requests]
    ∧ ((flush g now w).deref w.heap.length).map
          (fun r => (r.Body.RequestType, r.Body.Payload))
        = some (.GenerateMetrics,
            .Metrics { Namespace := ns, Series := inner.map fun e => seriesOf e.2 }) := by
  constructor
  · rw [flush_spawned]
    simp [hn, hm]
  · unfold flush
    simp only [hn, if_true, flushMetrics_eq, newRequest_ptr, newRequest_c, hm]
    simp [World.deref, newRequest, World.setPayload, payloadOf]

/-! ## Metric store: claims -/

/-- C7, as stated, fails on the kind: on a started client whose key was created by
`Count`, a `Gauge` call on the same key stores its value but the metric keeps
the kind "count". -/
theorem C7_gauge_on_count_key_keeps_count :
    (run exampleGlobals
        [.Start exampleEnv [], .Count 10 "tracers" "spans" 1 [] true,
         .Gauge 11 "tracers" "spans" 5 [] true]
        (World.zero Int agentOptions)).map
        (fun w => (w.c.started,
          (lookupMetric w.c "tracers" (metricKey "spans" [])).map (fun m => (m.kind, m.value))))
      = some (true, some ("count", 5)) := by
  decide

/-- C7, amended: on a started client, after any session of `Gauge` calls on one key
interleaved with flushes and heartbeat ticks, with at least one call, the
session completes and the metric stored under the key has the value of the last
call; its kind is the kind it was created with, "gauge" when the key held no
metric before the session. The `Series` entry built from it carries that kind
and the one point with that value, it is in the payload `flush` builds for the
namespace, and it is in every generate-metrics payload naming the namespace
that the next flush hands over. -/
theorem C7_gauge_stores_last_value {V : Type} [Zero V] (g : Globals) (ns : Namespace)
    (name : String) (tags : List String) (ops : List (KeyOp V)) (w : World V) (v : V)
    (hst : w.c.started = true) (hm : w.c.metrics.isSome = true)
    (ht : w.c.heartbeatT.isSome = true) (hv : (callValues ops).getLast? = some v) :
    ∃ w1 m, runKey g (fun now x common => Gauge now ns name x tags common) ops w = some w1
      ∧ lookupMetric w1.c ns (metricKey name tags) = some m
      ∧ m.value = v
      ∧ m.kind = ((lookupMetric w.c ns (metricKey name tags)).map fun m0 => m0.kind).getD
          metricKindGauge
      ∧ (lookupMetric w.c ns (metricKey name tags) = none → m.kind = "gauge")
      ∧ (seriesOf m).Type_ = m.kind
      ∧ (seriesOf m).Points = [(m.ts, v)]
      ∧ seriesOf m ∈ (payloadOf (w1.c.metrics.getD []) ns).Series
      ∧ (∀ (now : Int) (pm : Metrics V),
          ((flush g now w1).deref w1.heap.length).map (fun r => r.Body.Payload)
              = some (.Metrics pm) →
          pm.Namespace = ns → seriesOf m ∈ pm.Series) := by
  obtain ⟨w1, hrun, _, _, _, hl⟩ := runKey_spec g metricKindGauge (fun x _ => x) ns name tags
    (fun now x common => Gauge now ns name x tags common) (fun _ _ _ _ => rfl) ops w hst hm ht
  rw [afterCalls_gauge _ _ v _ hv] at hl
  cases hlk : lookupMetric w1.c ns (metricKey name tags) with
  | none => rw [hlk] at hl; cases hl
  | some m =>
    rw [hlk] at hl
    simp only [Option.map_some', Option.some.injEq, Prod.mk.injEq, Option.map_map] at hl
    have hkind : m.kind = ((lookupMetric w.c ns (metricKey name tags)).map
        fun m0 => m0.kind).getD metricKindGauge := by
      rw [hl.1]; rfl
    refine ⟨w1, m, hrun, hlk, hl.2, hkind, ?_, rfl, ?_, ?_, ?_⟩
    · intro hnone
      rw [hkind, hnone]; rfl
    · rw [← hl.2]; rfl
    · exact series_mem_payloadOf w1.c ns _ m hlk
    · intro now pm hp hns
      exact flush_reports_stored g now w1 ns _ m pm hlk hp hns

/-- C7, amended, at a freshly started client and a session with the calls 5 and 7. -/
theorem C7_gauge_stores_last_value_witness :
    startedWorld.c.started = true ∧ startedWorld.c.metrics.isSome = true
    ∧ startedWorld.c.heartbeatT.isSome = true
    ∧ (callValues exampleKeyOps).getLast? = some 7
    ∧ ∃ w1 m,
        runKey exampleGlobals (fun now x common => Gauge now "tracers" "spans" x [] common)
          exampleKeyOps startedWorld = some w1
      ∧ lookupMetric w1.c "tracers" (metricKey "spans" []) = some m
      ∧ m.value = 7
      ∧ m.kind = ((lookupMetric startedWorld.c "tracers" (metricKey "spans" [])).map
          fun m0 => m0.kind).getD metricKindGauge
      ∧ (lookupMetric startedWorld.c "tracers" (metricKey "spans" []) = none → m.kind = "gauge")
      ∧ (seriesOf m).Type_ = m.kind
      ∧ (seriesOf m).Points = [(m.ts, 7)]
      ∧ seriesOf m ∈ (payloadOf (w1.c.metrics.getD []) "tracers").Series
      ∧ (∀ (now : Int) (pm : Metrics Int),
          ((flush exampleGlobals now w1).deref w1.heap.length).map (fun r => r.Body.Payload)
              = some (.Metrics pm) →
          pm.Namespace = "tracers" → seriesOf m ∈ pm.Series) :=
  ⟨by decide, by decide, by decide, by decide,
    C7_gauge_stores_last_value exampleGlobals "tracers" "spans" [] exampleKeyOps startedWorld 7
      (by decide) (by decide) (by decide) (by decide)⟩

/-- C8: on a started client, after any session of `Count` calls on one key
interleaved with flushes and heartbeat ticks, with at least one call, the
session completes and the metric stored under the key has as value the deltas
added, in call order, to the value the key held before, which is zero when the
session created the metric: the sum of all deltas since creation. Its kind is
then "count". The `Series` entry built from it carries the one point with that
value and is in every generate-metrics payload naming the namespace that the
next flush hands over; a flush leaves the metrics map, hence every value, as it
is. -/
theorem C8_count_stores_sum_of_deltas {V : Type} [Zero V] [Add V] (g : Globals)
    (ns : Namespace) (name : String) (tags : List String) (ops : List (KeyOp V)) (w : World V)
    (hst : w.c.started = true) (hm : w.c.metrics.isSome = true)
    (ht : w.c.heartbeatT.isSome = true) (hne : callValues ops ≠ []) :
    ∃ w1 m, runKey g (fun now x common => Count now ns name x tags common) ops w = some w1
      ∧ lookupMetric w1.c ns (metricKey name tags) = some m
      ∧ m.value = (callValues ops).foldl (fun acc d => acc + d)
          (((lookupMetric w.c ns (metricKey name tags)).map fun m0 => m0.value).getD 0)
      ∧ (lookupMetric w.c ns (metricKey name tags) = none →
          m.value = (callValues ops).foldl (fun acc d => acc + d) 0 ∧ m.kind = "count")
      ∧ (seriesOf m).Points = [(m.ts, m.value)]
      ∧ seriesOf m ∈ (payloadOf (w1.c.metrics.getD []) ns).Series
      ∧ (∀ (now : Int) (pm : Metrics V),
          ((flush g now w1).deref w1.heap.length).map (fun r => r.Body.Payload)
              = some (.Metrics pm) →
          pm.Namespace = ns → seriesOf m ∈ pm.Series)
      ∧ (∀ (now : Int) (w0 : World V), (flush g now w0).c.metrics = w0.c.metrics) := by
  obtain ⟨w1, hrun, _, _, _, hl⟩ := runKey_spec g metricKindCount (fun x old => old + x) ns name
    tags (fun now x common => Count now ns name x tags common) (fun _ _ _ _ => rfl) ops w hst hm
    ht
  rw [afterCalls_count _ _ _ hne] at hl
  cases hlk : lookupMetric w1.c ns (metricKey name tags) with
  | none => rw [hlk] at hl; cases hl
  | some m =>
    rw [hlk] at hl
    simp only [Option.map_some', Option.some.injEq, Prod.mk.injEq, Option.map_map] at hl
    have hval : m.value = (callValues ops).foldl (fun acc d => acc + d)
        (((lookupMetric w.c ns (metricKey name tags)).map fun m0 => m0.value).getD 0) := by
      rw [hl.2]; rfl
    refine ⟨w1, m, hrun, hlk, hval, ?_, rfl, ?_, ?_, ?_⟩
    · intro hnone
      constructor
      · rw [hval, hnone]; rfl
      · rw [hl.1, hnone]; rfl
    · exact series_mem_payloadOf w1.c ns _ m hlk
    · intro now pm hp hns
      exact flush_reports_stored g now w1 ns _ m pm hlk hp hns
    · intro now w0
      exact flush_metrics g now w0

/-- C8 at a freshly started client and a session with the deltas 5 and 7. -/
theorem C8_count_stores_sum_of_deltas_witness :
    startedWorld.c.started = true ∧ startedWorld.c.metrics.isSome = true
    ∧ startedWorld.c.heartbeatT.isSome = true
    ∧ callValues exampleKeyOps ≠ []
    ∧ ∃ w1 m,
        runKey exampleGlobals (fun now x common => Count now "tracers" "spans" x [] common)
          exampleKeyOps startedWorld = some w1
      ∧ lookupMetric w1.c "tracers" (metricKey "spans" []) = some m
      ∧ m.value = (callValues exampleKeyOps).foldl (fun acc d => acc + d)
          (((lookupMetric startedWorld.c "tracers" (metricKey "spans" [])).map
            fun m0 => m0.value).getD 0)
      ∧ (lookupMetric startedWorld.c "tracers" (metricKey "spans" []) = none →
          m.value = (callValues exampleKeyOps).foldl (fun acc d => acc + d) 0
          ∧ m.kind = "count")
      ∧ (seriesOf m).Points = [(m.ts, m.value)]
      ∧ seriesOf m ∈ (payloadOf (w1.c.metrics.getD []) "tracers").Series
      ∧ (∀ (now : Int) (pm : Metrics Int),
          ((flush exampleGlobals now w1).deref w1.heap.length).map (fun r => r.Body.Payload)
              = some (.Metrics pm) →
          pm.Namespace = "tracers" → seriesOf m ∈ pm.Series)
      ∧ (∀ (now : Int) (w0 : World Int),
          (flush exampleGlobals now w0).c.metrics = w0.c.metrics) :=
  ⟨by decide, by decide, by decide, by decide,
    C8_count_stores_sum_of_deltas exampleGlobals "tracers" "spans" [] exampleKeyOps startedWorld
      (by decide) (by decide) (by decide) (by decide)⟩

/-- C9, amended: a flush leaves the metrics map as it is and the dirty flag cleared;
on a started client whose dirty flag is cleared, a heartbeat tick completes,
builds exactly one request, the app-heartbeat request, and hands over the
queued requests followed by it, with no generate-metrics request; the metrics
map, and so the gauge with its last value, stays as it is and the dirty flag
stays cleared. -/
theorem C9_tick_after_drain_builds_heartbeat_only {V : Type} (g : Globals) (now : Int)
    (w : World V) (hst : w.c.started = true) (ht : w.c.heartbeatT.isSome = true)
    (hclean : w.c.newMetrics = false) :
    (∀ (now0 : Int) (w0 : World V),
        (flush g now0 w0).c.metrics = w0.c.metrics ∧ (flush g now0 w0).c.newMetrics = false)
    ∧ ∃ w1, backgroundHeartbeat g now w = some w1
      ∧ w1.c.metrics = w.c.metrics
      ∧ w1.c.newMetrics = false
      ∧ w1.types = w.types ++ [.AppHeartbeat]
      ∧ w1.spawned = w.spawned ++ [w.c.requests ++ [w.heap.length]]
      ∧ (∀ ns key, lookupMetric w1.c ns key = lookupMetric w.c ns key) := by
  refine ⟨fun now0 w0 => ⟨flush_metrics g now0 w0, by rw [flush_c]⟩, ?_⟩
  refine ⟨_, backgroundHeartbeat_started g now w hst ht, ?_, ?_, ?_, ?_, ?_⟩
  · simp only [flush_c]; rfl
  · simp only [flush_c]
  · change (flush g now _).types = _
    rw [flush_types]
    simp only [scheduleSubmit, newRequest_c, hclean, Bool.false_eq_true, if_false]
    exact newRequest_types g now .AppHeartbeat w
  · change (flush g now _).spawned = _
    rw [flush_spawned]
    simp [scheduleSubmit, hclean]
  · intro ns key
    exact lookupMetric_congr _ _ (by simp only [flush_c]; rfl) ns key

/-- C9, amended, at the client whose gauge was drained by the previous tick. -/
theorem C9_tick_after_drain_builds_heartbeat_only_witness :
    drainedWorld.c.started = true ∧ drainedWorld.c.heartbeatT.isSome = true
    ∧ drainedWorld.c.newMetrics = false
    ∧ (lookupMetric drainedWorld.c "tracers" (metricKey "spans" [])).map (fun m => m.value)
        = some 5
    ∧ ((∀ (now0 : Int) (w0 : World Int),
          (flush exampleGlobals now0 w0).c.metrics = w0.c.metrics
          ∧ (flush exampleGlobals now0 w0).c.newMetrics = false)
      ∧ ∃ w1, backgroundHeartbeat exampleGlobals 13 drainedWorld = some w1
        ∧ w1.c.metrics = drainedWorld.c.metrics
        ∧ w1.c.newMetrics = false
        ∧ w1.types = drainedWorld.types ++ [.AppHeartbeat]
        ∧ w1.spawned = drainedWorld.spawned ++ [drainedWorld.c.requests ++ [drainedWorld.heap.length]]
        ∧ (∀ ns key, lookupMetric w1.c ns key = lookupMetric drainedWorld.c ns key)) :=
  ⟨by decide, by decide, by decide, by decide,
    C9_tick_after_drain_builds_heartbeat_only exampleGlobals 13 drainedWorld (by decide)
      (by decide) (by decide)⟩

/-- C10 at a session that stops and restarts the client. -/
theorem C10_sequence_numbers_count_up_witness :
    ∃ w, run exampleGlobals
          [.Start exampleEnv [], .Gauge 10 "tracers" "spans" 5 [] true, .Heartbeat 11,
           .Stop 12, .Start exampleEnv [], .Heartbeat 13]
          (World.zero Int agentOptions) = some w
      ∧ w.c.seqID = wrapInt64 w.heap.length
      ∧ (∀ (i : Nat) (r : Request Int), w.heap[i]? = some r →
          r.Body.SeqID = wrapInt64 ((i : Int) + 1)
          ∧ ((i : Int) + 1 < 2 ^ 63 → r.Body.SeqID = (i : Int) + 1))
      ∧ (∀ (now : Int) (t : RequestType),
          ((newRequest exampleGlobals now t w).1.deref (newRequest exampleGlobals now t w).2).map
              (fun r => r.Body.SeqID)
            = some (wrapInt64 ((w.heap.length : Int) + 1))) :=
  C10_sequence_numbers_count_up exampleGlobals agentOptions _

/-! ## Lifecycle: lemmas -/

theorem Start_of_started {V : Type} (g : Globals) (env : StartEnv)
    (configuration : List Configuration) (w : World V) (h : w.c.started = true) :
    Start g env configuration w = w := by
  unfold Start
  by_cases hd : env.disabled = true
  · rw [if_pos hd]
  · rw [if_neg hd, if_pos h]

theorem Start_of_disabled {V : Type} (g : Globals) (env : StartEnv)
    (configuration : List Configuration) (w : World V) (h : env.disabled = true) :
    Start g env configuration w = w := by
  unfold Start
  rw [if_pos h]

theorem Start_of_fallback_error {V : Type} (g : Globals) (env : StartEnv)
    (configuration : List Configuration) (w : World V) (hd : env.disabled = false)
    (hst : w.c.started = false) (hf : (env.fallbackOps w.c.toOptions).2.isSome = true) :
    Start g env configuration w
      = { w with c := { w.c with toOptions := (env.fallbackOps w.c.toOptions).1 } } := by
  unfold Start
  simp [hd, hst, hf]

theorem Start_of_ok {V : Type} (g : Globals) (env : StartEnv)
    (configuration : List Configuration) (w : World V) (hd : env.disabled = false)
    (hst : w.c.started = false) (hf : (env.fallbackOps w.c.toOptions).2 = none) :
    Start g env configuration w
      = startSession g env configuration
          { w with c := { w.c with toOptions := (env.fallbackOps w.c.toOptions).1 } } := by
  unfold Start
  simp [hd, hst, hf]

theorem Stop_of_stopped {V : Type} (g : Globals) (now : Int) (w : World V)
    (h : w.c.started = false) : Stop g now w = some w := by
  unfold Stop
  simp [h]

theorem Stop_of_started {V : Type} (g : Globals) (now : Int) (w : World V) (t : Timer)
    (hst : w.c.started = true) (ht : w.c.heartbeatT = some t) :
    Stop g now w =
      some (flush g now (scheduleSubmit
        (newRequest g now .AppClosing
          { w with c := { w.c with started := false,
                                   heartbeatT := some { t with active := false } } }).1
        w.heap.length)) := by
  unfold Stop
  simp [hst, ht]

theorem Stop_started_false {V : Type} (g : Globals) (now : Int) (w w1 : World V)
    (h : Stop g now w = some w1) : w1.c.started = false := by
  cases hst : w.c.started with
  | false =>
    rw [Stop_of_stopped g now w hst] at h
    cases h; exact hst
  | true =>
    cases ht : w.c.heartbeatT with
    | none => simp [Stop, hst, ht] at h
    | some t =>
      rw [Stop_of_started g now w t hst ht] at h
      cases h
      simp [flush_c, scheduleSubmit]

/-! ## Lifecycle: claims -/

/-- C11: on a started client a further `Start` changes nothing: the whole world, the
client with its flag, counter, queue, metrics map and dirty flag, the heap of
requests built and the batches handed to workers, is the one before the call. -/
theorem C11_start_on_started_is_noop {V : Type} (g : Globals) (env : StartEnv)
    (configuration : List Configuration) (w : World V) (h : w.c.started = true) :
    Start g env configuration w = w
    ∧ (Start g env configuration w).c.started = true
    ∧ (Start g env configuration w).c.seqID = w.c.seqID
    ∧ (Start g env configuration w).c.requests = w.c.requests
    ∧ (Start g env configuration w).c.metrics = w.c.metrics
    ∧ (Start g env configuration w).c.newMetrics = w.c.newMetrics
    ∧ (Start g env configuration w).heap = w.heap
    ∧ (Start g env configuration w).spawned = w.spawned := by
  rw [Start_of_started g env configuration w h]
  exact ⟨rfl, h, rfl, rfl, rfl, rfl, rfl, rfl⟩

/-- C11 at the freshly started sample client. -/
theorem C11_start_on_started_is_noop_witness :
    startedWorld.c.started = true
    ∧ Start exampleGlobals exampleEnv [] startedWorld = startedWorld
    ∧ (Start exampleGlobals exampleEnv [] startedWorld).c.started = true
    ∧ (Start exampleGlobals exampleEnv [] startedWorld).c.seqID = startedWorld.c.seqID
    ∧ (Start exampleGlobals exampleEnv [] startedWorld).c.requests = startedWorld.c.requests
    ∧ (Start exampleGlobals exampleEnv [] startedWorld).c.metrics = startedWorld.c.metrics
    ∧ (Start exampleGlobals exampleEnv [] startedWorld).c.newMetrics
        = startedWorld.c.newMetrics
    ∧ (Start exampleGlobals exampleEnv [] startedWorld).heap = startedWorld.heap
    ∧ (Start exampleGlobals exampleEnv [] startedWorld).spawned = startedWorld.spawned :=
  ⟨by decide, C11_start_on_started_is_noop exampleGlobals exampleEnv [] startedWorld
    (by decide)⟩

/-- C12: on a client that is not started, be it never started with its nil timer or
already stopped, `Stop` returns with the world as it was: no request is built,
nothing is handed over and the timer is not touched. And from any world, a
`Stop` after a `Stop` gives what the first `Stop` gave. -/
theorem C12_stop_on_stopped_is_noop {V : Type} (g : Globals) (now : Int) (w : World V)
    (h : w.c.started = false) :
    Stop g now w = some w
    ∧ (∀ (now1 now2 : Int) (w0 : World V),
        (Stop g now1 w0).bind (Stop g now2) = Stop g now1 w0) := by
  refine ⟨Stop_of_stopped g now w h, ?_⟩
  intro now1 now2 w0
  cases hs : Stop g now1 w0 with
  | none => rfl
  | some w1 =>
    have := Stop_started_false g now1 w0 w1 hs
    simp [Stop_of_stopped g now2 w1 this]

/-- C12 at the zero-value client, whose timer is nil. -/
theorem C12_stop_on_stopped_is_noop_witness :
    (World.zero Int agentOptions).c.started = false
    ∧ (World.zero Int agentOptions).c.heartbeatT = none
    ∧ Stop exampleGlobals 5 (World.zero Int agentOptions) = some (World.zero Int agentOptions)
    ∧ (∀ (now1 now2 : Int) (w0 : World Int),
        (Stop exampleGlobals now1 w0).bind (Stop exampleGlobals now2)
          = Stop exampleGlobals now1 w0) :=
  ⟨rfl, rfl, C12_stop_on_stopped_is_noop exampleGlobals 5 (World.zero Int agentOptions) rfl⟩

theorem startSession_c {V : Type} (g : Globals) (env : StartEnv)
    (configuration : List Configuration) (wf : World V) :
    (startSession g env configuration wf).c.started = true
    ∧ (startSession g env configuration wf).c.metrics = some []
    ∧ (startSession g env configuration wf).c.newMetrics = false
    ∧ (startSession g env configuration wf).c.requests = []
    ∧ (startSession g env configuration wf).c.debug = env.debugEnv
    ∧ (startSession g env configuration wf).c.heartbeatInterval
        = (if env.heartbeatEnv < 1 ∨ env.heartbeatEnv > 3600 then defaultHeartbeatInterval
           else env.heartbeatEnv) * second
    ∧ (startSession g env configuration wf).c.heartbeatT
        = some { d := (if env.heartbeatEnv < 1 ∨ env.heartbeatEnv > 3600
                       then defaultHeartbeatInterval else env.heartbeatEnv) * second,
                 active := true } := by
  unfold startSession armHeartbeat
  simp [flush_c, startRequests_c]

/-- C13: on a client that is not started, `Gauge` and `Count` return with the world
as it was, so no metric is created, the dirty flag is not set and the nil map of
a never-started client is not written. A later `Start` therefore behaves as if
the calls had not been made, and when it starts the client the metrics map is
the freshly allocated empty one, with no metric under any key. -/
theorem C13_metric_calls_on_stopped_are_noops {V : Type} [Zero V] [Add V] (g : Globals)
    (now : Int) (ns : Namespace) (name : String) (value : V) (tags : List String)
    (common : Bool) (w : World V) (h : w.c.started = false) :
    Gauge now ns name value tags common w = some w
    ∧ Count now ns name value tags common w = some w
    ∧ (∀ (env : StartEnv) (configuration : List Configuration),
        (Gauge now ns name value tags common w).map (Start g env configuration)
          = some (Start g env configuration w)
        ∧ (Count now ns name value tags common w).map (Start g env configuration)
          = some (Start g env configuration w)
        ∧ ((Start g env configuration w).c.started = true →
            (Start g env configuration w).c.metrics = some []
            ∧ ∀ ns1 key1, lookupMetric (Start g env configuration w).c ns1 key1 = none)) := by
  have hg : Gauge now ns name value tags common w = some w := by simp [Gauge, h]
  have hc : Count now ns name value tags common w = some w := by simp [Count, h]
  refine ⟨hg, hc, fun env configuration => ⟨by rw [hg]; rfl, by rw [hc]; rfl, ?_⟩⟩
  intro hs
  have hmet : (Start g env configuration w).c.metrics = some [] := by
    cases hd : env.disabled with
    | true =>
      rw [Start_of_disabled g env configuration w hd, h] at hs; cases hs
    | false =>
      cases hf : (env.fallbackOps w.c.toOptions).2 with
      | some e =>
        rw [Start_of_fallback_error g env configuration w hd h (by simp [hf])] at hs
        simp [h] at hs
      | none =>
        rw [Start_of_ok g env configuration w hd h hf]
        exact (startSession_c g env configuration _).2.1
  refine ⟨hmet, fun ns1 key1 => ?_⟩
  simp [lookupMetric, hmet]

/-- C13 at the zero-value client, whose metrics map is nil. -/
theorem C13_metric_calls_on_stopped_are_noops_witness :
    (World.zero Int agentOptions).c.started = false
    ∧ (World.zero Int agentOptions).c.metrics = none
    ∧ Gauge 3 "tracers" "spans" 5 ["a:b"] true (World.zero Int agentOptions)
        = some (World.zero Int agentOptions)
    ∧ Count 3 "tracers" "spans" 5 ["a:b"] true (World.zero Int agentOptions)
        = some (World.zero Int agentOptions)
    ∧ (∀ (env : StartEnv) (configuration : List Configuration),
        (Gauge 3 "tracers" "spans" 5 ["a:b"] true (World.zero Int agentOptions)).map
            (Start exampleGlobals env configuration)
          = some (Start exampleGlobals env configuration (World.zero Int agentOptions))
        ∧ (Count 3 "tracers" "spans" 5 ["a:b"] true (World.zero Int agentOptions)).map
            (Start exampleGlobals env configuration)
          = some (Start exampleGlobals env configuration (World.zero Int agentOptions))
        ∧ ((Start exampleGlobals env configuration (World.zero Int agentOptions)).c.started
              = true →
            (Start exampleGlobals env configuration (World.zero Int agentOptions)).c.metrics
              = some []
            ∧ ∀ ns1 key1,
                lookupMetric
                  (Start exampleGlobals env configuration (World.zero Int agentOptions)).c
                  ns1 key1 = none)) :=
  ⟨rfl, rfl, C13_metric_calls_on_stopped_are_noops exampleGlobals 3 "tracers" "spans" 5 ["a:b"]
    true (World.zero Int agentOptions) rfl⟩

/-- C14, as stated, fails: with the option set to 0 the interval after `Start` is the
default 60 s, not 1 s, and with the option set to 5000 it is 60 s, not 3600 s. -/
theorem C14_out_of_range_interval_is_default :
    (Start exampleGlobals (heartbeatEnvOf 0) [] (World.zero Int agentOptions)).c.started = true
    ∧ (Start exampleGlobals (heartbeatEnvOf 0) [] (World.zero Int agentOptions)).c.heartbeatInterval
        = 60 * second
    ∧ (Start exampleGlobals (heartbeatEnvOf 0) [] (World.zero Int agentOptions)).c.heartbeatInterval
        ≠ 1 * second
    ∧ (Start exampleGlobals (heartbeatEnvOf 5000) [] (World.zero Int agentOptions)).c.heartbeatInterval
        = 60 * second
    ∧ (Start exampleGlobals (heartbeatEnvOf 5000) [] (World.zero Int agentOptions)).c.heartbeatInterval
        ≠ 3600 * second := by
  decide

/-- C14, amended: after a `Start` that passes its guards, the heartbeat interval is
the configured number of seconds when that number lies in `[1, 3600]` and the
default of 60 seconds otherwise, and the timer is armed with that interval. -/
theorem C14_interval_in_range_or_default {V : Type} (g : Globals) (env : StartEnv)
    (configuration : List Configuration) (w : World V) (hd : env.disabled = false)
    (hst : w.c.started = false) (hf : (env.fallbackOps w.c.toOptions).2 = none) :
    (Start g env configuration w).c.started = true
    ∧ (Start g env configuration w).c.heartbeatInterval
        = (if 1 ≤ env.heartbeatEnv ∧ env.heartbeatEnv ≤ 3600 then env.heartbeatEnv else 60)
            * second
    ∧ (Start g env configuration w).c.heartbeatT
        = some { d := (Start g env configuration w).c.heartbeatInterval, active := true }
    ∧ 1 * second ≤ (Start g env configuration w).c.heartbeatInterval
    ∧ (Start g env configuration w).c.heartbeatInterval ≤ 3600 * second := by
  rw [Start_of_ok g env configuration w hd hst hf]
  obtain ⟨h1, _, _, _, _, h6, h7⟩ := startSession_c g env configuration
    ({ w with c := { w.c with toOptions := (env.fallbackOps w.c.toOptions).1 } } : World V)
  have hval : (if env.heartbeatEnv < 1 ∨ env.heartbeatEnv > 3600 then defaultHeartbeatInterval
        else env.heartbeatEnv)
      = (if 1 ≤ env.heartbeatEnv ∧ env.heartbeatEnv ≤ 3600 then env.heartbeatEnv else 60) := by
    unfold defaultHeartbeatInterval
    by_cases hr : 1 ≤ env.heartbeatEnv ∧ env.heartbeatEnv ≤ 3600
    · rw [if_pos hr, if_neg (by omega)]
    · rw [if_neg hr, if_pos (by omega)]
  rw [hval] at h6 h7
  refine ⟨h1, h6, by rw [h7, h6], ?_, ?_⟩ <;>
  · rw [h6]
    unfold second
    by_cases hr : 1 ≤ env.heartbeatEnv ∧ env.heartbeatEnv ≤ 3600
    · rw [if_pos hr]; omega
    · rw [if_neg hr]; omega

/-- C14, amended, at the zero-value client with the option set to 5000. -/
theorem C14_interval_in_range_or_default_witness :
    (heartbeatEnvOf 5000).disabled = false
    ∧ (World.zero Int agentOptions).c.started = false
    ∧ ((heartbeatEnvOf 5000).fallbackOps (World.zero Int agentOptions).c.toOptions).2 = none
    ∧ (Start exampleGlobals (heartbeatEnvOf 5000) [] (World.zero Int agentOptions)).c.started
        = true
    ∧ (Start exampleGlobals (heartbeatEnvOf 5000) [] (World.zero Int agentOptions)).c.heartbeatInterval
        = (if 1 ≤ (heartbeatEnvOf 5000).heartbeatEnv ∧ (heartbeatEnvOf 5000).heartbeatEnv ≤ 3600
            then (heartbeatEnvOf 5000).heartbeatEnv else 60) * second
    ∧ (Start exampleGlobals (heartbeatEnvOf 5000) [] (World.zero Int agentOptions)).c.heartbeatT
        = some { d := (Start exampleGlobals (heartbeatEnvOf 5000) []
                        (World.zero Int agentOptions)).c.heartbeatInterval,
                 active := true }
    ∧ 1 * second
        ≤ (Start exampleGlobals (heartbeatEnvOf 5000) [] (World.zero Int agentOptions)).c.heartbeatInterval
    ∧ (Start exampleGlobals (heartbeatEnvOf 5000) [] (World.zero Int agentOptions)).c.heartbeatInterval
        ≤ 3600 * second :=
  ⟨rfl, rfl, rfl, C14_interval_in_range_or_default exampleGlobals (heartbeatEnvOf 5000) []
    (World.zero Int agentOptions) rfl rfl rfl⟩

/-- C16: on a client that is not started, a `Start` with telemetry disabled or with
failing fallback options leaves the client stopped: the flag stays false, the
counter, the queue, the metrics map (nil if it was nil), the dirty flag and the
timer (not armed if it was not) are as before, no request is built and nothing
is handed to a worker. -/
theorem C16_guarded_start_stays_stopped {V : Type} (g : Globals) (env : StartEnv)
    (configuration : List Configuration) (w : World V) (hst : w.c.started = false)
    (hg : env.disabled = true ∨ (env.fallbackOps w.c.toOptions).2.isSome = true) :
    (Start g env configuration w).c.started = false
    ∧ (Start g env configuration w).c.seqID = w.c.seqID
    ∧ (Start g env configuration w).c.requests = w.c.requests
    ∧ (Start g env configuration w).c.metrics = w.c.metrics
    ∧ (Start g env configuration w).c.newMetrics = w.c.newMetrics
    ∧ (Start g env configuration w).c.heartbeatT = w.c.heartbeatT
    ∧ (Start g env configuration w).c.heartbeatInterval = w.c.heartbeatInterval
    ∧ (Start g env configuration w).c.debug = w.c.debug
    ∧ (Start g env configuration w).heap = w.heap
    ∧ (Start g env configuration w).spawned = w.spawned := by
  cases hd : env.disabled with
  | true =>
    rw [Start_of_disabled g env configuration w hd]
    exact ⟨hst, rfl, rfl, rfl, rfl, rfl, rfl, rfl, rfl, rfl⟩
  | false =>
    have hf : (env.fallbackOps w.c.toOptions).2.isSome = true := by
      rcases hg with h | h
      · rw [hd] at h; cases h
      · exact h
    rw [Start_of_fallback_error g env configuration w hd hst hf]
    exact ⟨hst, rfl, rfl, rfl, rfl, rfl, rfl, rfl, rfl, rfl⟩

/-- C16 at the zero-value client with fallback options that do not validate. -/
theorem C16_guarded_start_stays_stopped_witness :
    (World.zero Int agentOptions).c.started = false
    ∧ (failingEnv.disabled = true
        ∨ (failingEnv.fallbackOps (World.zero Int agentOptions).c.toOptions).2.isSome = true)
    ∧ (Start exampleGlobals failingEnv [] (World.zero Int agentOptions)).c.started = false
    ∧ (Start exampleGlobals failingEnv [] (World.zero Int agentOptions)).c.seqID
        = (World.zero Int agentOptions).c.seqID
    ∧ (Start exampleGlobals failingEnv [] (World.zero Int agentOptions)).c.requests
        = (World.zero Int agentOptions).c.requests
    ∧ (Start exampleGlobals failingEnv [] (World.zero Int agentOptions)).c.metrics
        = (World.zero Int agentOptions).c.metrics
    ∧ (Start exampleGlobals failingEnv [] (World.zero Int agentOptions)).c.newMetrics
        = (World.zero Int agentOptions).c.newMetrics
    ∧ (Start exampleGlobals failingEnv [] (World.zero Int agentOptions)).c.heartbeatT
        = (World.zero Int agentOptions).c.heartbeatT
    ∧ (Start exampleGlobals failingEnv [] (World.zero Int agentOptions)).c.heartbeatInterval
        = (World.zero Int agentOptions).c.heartbeatInterval
    ∧ (Start exampleGlobals failingEnv [] (World.zero Int agentOptions)).c.debug
        = (World.zero Int agentOptions).c.debug
    ∧ (Start exampleGlobals failingEnv [] (World.zero Int agentOptions)).heap
        = (World.zero Int agentOptions).heap
    ∧ (Start exampleGlobals failingEnv [] (World.zero Int agentOptions)).spawned
        = (World.zero Int agentOptions).spawned :=
  ⟨rfl, Or.inr rfl, C16_guarded_start_stays_stopped exampleGlobals failingEnv []
    (World.zero Int agentOptions) rfl (Or.inr rfl)⟩

/-! ## Request builder: claims -/

/-- C15: the request that `newRequest` builds has the client's URL; it carries a
`DD-API-KEY` header exactly when that URL is the agentless URL, and then with
the client's `APIKey` as its value; and the eight headers for content type, API
version, request type, library language, library version, environment,
hostname and container ID are present with their values. -/
theorem C15_newRequest_headers {V : Type} (g : Globals) (now : Int) (t : RequestType)
    (w : World V) :
    ∃ r, (newRequest g now t w).1.deref (newRequest g now t w).2 = some r
      ∧ r.URL = w.c.URL
      ∧ r.Header.Values "DD-API-KEY"
          = (if w.c.URL = g.agentlessURL then some [w.c.APIKey] else none)
      ∧ ((r.Header.Values "DD-API-KEY").isSome = true ↔ w.c.URL = g.agentlessURL)
      ∧ r.Header.Values "Content-Type" = some ["application/json"]
      ∧ r.Header.Values "DD-Telemetry-API-Version" = some ["v2"]
      ∧ r.Header.Values "DD-Telemetry-Request-Type" = some [t.toString]
      ∧ r.Header.Values "DD-Client-Library-Language" = some ["go"]
      ∧ r.Header.Values "DD-Client-Library-Version" = some [g.versionTag]
      ∧ r.Header.Values "DD-Agent-Env" = some [w.c.Env]
      ∧ r.Header.Values "DD-Agent-Hostname" = some [g.hostname]
      ∧ r.Header.Values "Datadog-Container-ID" = some [g.containerID] := by
  obtain ⟨r, hr⟩ : ∃ r, (newRequest g now t w).1.deref (newRequest g now t w).2 = some r := by
    simp [newRequest, World.deref]
  have hr1 := hr
  simp only [newRequest, World.deref, List.getElem?_concat_length, Option.some.injEq] at hr1
  subst hr1
  by_cases hu : w.c.URL = g.agentlessURL
  · refine ⟨_, hr, rfl, ?_, ?_, ?_, ?_, ?_, ?_, ?_, ?_, ?_, ?_⟩ <;>
      simp [hu, Header.Set, Header.Values]
  · refine ⟨_, hr, rfl, ?_, ?_, ?_, ?_, ?_, ?_, ?_, ?_, ?_, ?_⟩ <;>
      simp [hu, Header.Set, Header.Values]

/-! ## Heartbeat and stop: lemmas -/

theorem batchTypes_eq {V : Type} (w : World V) (batch : List Nat) :
    batchTypes w batch = batch.filterMap fun p => w.types[p]? := by
  unfold batchTypes World.deref World.types
  congr 1
  funext p
  simp

theorem filterMap_replicate {α β : Type} (f : α → Option β) (a : α) (b : β) (k : Nat)
    (h : f a = some b) : (List.replicate k a).filterMap f = List.replicate k b := by
  induction k with
  | zero => rfl
  | succ n ih => simp [List.replicate_succ, List.filterMap_cons, h, ih]

/-- What building a request of type `t`, queueing it and flushing does: the batch
handed over holds one entry per namespace of dirty metrics, all of them the
pointer of the generate-metrics request, then the queued requests, then the
new request; one request of type `t` is built, and a generate-metrics request
after it exactly when the dirty flag was set. -/
theorem emit_spec {V : Type} (g : Globals) (now : Int) (t : RequestType) (w : World V) :
    (flush g now (scheduleSubmit (newRequest g now t w).1 w.heap.length)).spawned
      = w.spawned ++
          [(if w.c.newMetrics then
              List.replicate (w.c.metrics.getD []).length (w.heap.length + 1)
            else []) ++ w.c.requests ++ [w.heap.length]]
    ∧ (flush g now (scheduleSubmit (newRequest g now t w).1 w.heap.length)).types
      = w.types ++ [t] ++ (if w.c.newMetrics then [.GenerateMetrics] else [])
    ∧ (flush g now (scheduleSubmit (newRequest g now t w).1 w.heap.length)).c
      = { w.c with
          requests := [], newMetrics := false,
          seqID := if w.c.newMetrics then wrapInt64 (wrapInt64 (w.c.seqID + 1) + 1)
                   else wrapInt64 (w.c.seqID + 1) } := by
  refine ⟨?_, ?_, ?_⟩
  · rw [flush_spawned]
    simp [scheduleSubmit]
  · rw [flush_types]
    have h1 : (scheduleSubmit (newRequest g now t w).1 w.heap.length).types = w.types ++ [t] :=
      newRequest_types g now t w
    rw [h1]
    cases hn : w.c.newMetrics <;> simp [scheduleSubmit, hn]
  · rw [flush_c]
    cases hn : w.c.newMetrics <;> simp [scheduleSubmit, hn]

theorem types_length {V : Type} (w : World V) : w.types.length = w.heap.length := by
  simp [World.types]

/-- The request types found through the pointers of a batch of the shape that
`emit_spec` describes. -/
theorem batchTypes_emit {V : Type} (w w1 : World V) (t : RequestType) (k : Nat) (dirty : Bool)
    (ht : w1.types = w.types ++ [t] ++ (if dirty then [.GenerateMetrics] else [])) :
    batchTypes w1 ((if dirty then List.replicate k (w.heap.length + 1) else [])
        ++ w.c.requests ++ [w.heap.length])
      = (if dirty then List.replicate k .GenerateMetrics else [])
        ++ batchTypes w1 w.c.requests ++ [t] := by
  have hlen := types_length w
  have hn : w1.types[w.heap.length]? = some t := by
    rw [ht, List.append_assoc, List.getElem?_append_right (by omega)]
    simp [hlen]
  rw [batchTypes_eq, List.filterMap_append, List.filterMap_append, batchTypes_eq]
  congr 1
  · congr 1
    cases dirty with
    | false => simp
    | true =>
      have hn1 : w1.types[w.heap.length + 1]? = some .GenerateMetrics := by
        rw [ht, List.getElem?_append_right (by simp [hlen])]
        simp [hlen]
      simp only [if_true]
      exact filterMap_replicate _ _ _ k hn1
  · simp [hn]

/-! ## Heartbeat and stop: claims -/

/-- C17: a heartbeat tick on a client that is not started returns with the world as
it was. On a started client, with its timer set and a dirty flag that is set
only when the metrics map holds a namespace, the tick completes and keeps the
client started; it builds exactly one app-heartbeat request, and after it one
generate-metrics request exactly when the dirty flag was set; the one batch it
hands over holds the generate-metrics entries, then the requests that were
queued, then the app-heartbeat request, and it holds a generate-metrics entry
exactly when the dirty flag was set. -/
theorem C17_tick_hands_over_one_heartbeat {V : Type} (g : Globals) (now : Int) (w : World V)
    (hst : w.c.started = true) (ht : w.c.heartbeatT.isSome = true)
    (hd : w.c.newMetrics = true → w.c.metrics.getD [] ≠ []) :
    (∀ (w0 : World V), w0.c.started = false → backgroundHeartbeat g now w0 = some w0)
    ∧ ∃ w1 gen, backgroundHeartbeat g now w = some w1
      ∧ w1.c.started = true
      ∧ w1.types = w.types ++ [.AppHeartbeat]
          ++ (if w.c.newMetrics then [.GenerateMetrics] else [])
      ∧ w1.spawned = w.spawned ++ [gen ++ w.c.requests ++ [w.heap.length]]
      ∧ gen = (if w.c.newMetrics then
                List.replicate (w.c.metrics.getD []).length (w.heap.length + 1) else [])
      ∧ (gen ≠ [] ↔ w.c.newMetrics = true)
      ∧ batchTypes w1 (gen ++ w.c.requests ++ [w.heap.length])
          = (if w.c.newMetrics then
              List.replicate (w.c.metrics.getD []).length .GenerateMetrics else [])
            ++ batchTypes w1 w.c.requests ++ [.AppHeartbeat]
      ∧ (w.c.requests = [] →
          (batchTypes w1 (gen ++ w.c.requests ++ [w.heap.length])).count .AppHeartbeat = 1) := by
  refine ⟨fun w0 h0 => by simp [backgroundHeartbeat, h0], ?_⟩
  obtain ⟨hsp, hty, hc⟩ := emit_spec g now .AppHeartbeat w
  have hbt := batchTypes_emit w
    ({ flush g now (scheduleSubmit (newRequest g now .AppHeartbeat w).1 w.heap.length) with
       c := { (flush g now
                (scheduleSubmit (newRequest g now .AppHeartbeat w).1 w.heap.length)).c with
              heartbeatT := some { d := w.c.heartbeatInterval, active := true } } } : World V)
    .AppHeartbeat (w.c.metrics.getD []).length w.c.newMetrics hty
  refine ⟨_, _, backgroundHeartbeat_started g now w hst ht, ?_, hty, hsp, rfl, ?_, hbt, ?_⟩
  · simp only [hc]; exact hst
  · cases hn : w.c.newMetrics with
    | false => simp
    | true =>
      have := hd hn
      simp only [if_true, ne_eq, iff_true]
      intro hrep
      apply this
      have hl := congrArg List.length hrep
      simp only [List.length_replicate, List.length_nil] at hl
      exact List.length_eq_zero.mp hl
  · intro hq
    rw [hbt, hq]
    cases hn : w.c.newMetrics <;>
      simp [batchTypes, List.count_replicate]

/-- C17 at the started sample client with one dirty gauge. -/
theorem C17_tick_hands_over_one_heartbeat_witness :
    dirtyWorld.c.started = true ∧ dirtyWorld.c.heartbeatT.isSome = true
    ∧ dirtyWorld.c.newMetrics = true
    ∧ (dirtyWorld.c.newMetrics = true → dirtyWorld.c.metrics.getD [] ≠ [])
    ∧ ((∀ (w0 : World Int), w0.c.started = false →
          backgroundHeartbeat exampleGlobals 11 w0 = some w0)
      ∧ ∃ w1 gen, backgroundHeartbeat exampleGlobals 11 dirtyWorld = some w1
        ∧ w1.c.started = true
        ∧ w1.types = dirtyWorld.types ++ [.AppHeartbeat]
            ++ (if dirtyWorld.c.newMetrics then [.GenerateMetrics] else [])
        ∧ w1.spawned = dirtyWorld.spawned
            ++ [gen ++ dirtyWorld.c.requests ++ [dirtyWorld.heap.length]]
        ∧ gen = (if dirtyWorld.c.newMetrics then
                  List.replicate (dirtyWorld.c.metrics.getD []).length
                    (dirtyWorld.heap.length + 1) else [])
        ∧ (gen ≠ [] ↔ dirtyWorld.c.newMetrics = true)
        ∧ batchTypes w1 (gen ++ dirtyWorld.c.requests ++ [dirtyWorld.heap.length])
            = (if dirtyWorld.c.newMetrics then
                List.replicate (dirtyWorld.c.metrics.getD []).length .GenerateMetrics else [])
              ++ batchTypes w1 dirtyWorld.c.requests ++ [.AppHeartbeat]
        ∧ (dirtyWorld.c.requests = [] →
            (batchTypes w1 (gen ++ dirtyWorld.c.requests ++ [dirtyWorld.heap.length])).count
              .AppHeartbeat = 1)) :=
  ⟨by decide, by decide, by decide, by decide,
    C17_tick_hands_over_one_heartbeat exampleGlobals 11 dirtyWorld (by decide) (by decide)
      (by decide)⟩

/-- C18: on a started client with its timer set, `Stop` completes, sets the flag to
false and stops the timer; it builds exactly one app-closing request, and after
it one generate-metrics request exactly when the dirty flag was set; the one
batch it hands over holds one generate-metrics entry per namespace of dirty
metrics, then every request that was queued, then the app-closing request; and
afterwards the queue is empty and the dirty flag is false. -/
theorem C18_stop_hands_over_app_closing {V : Type} (g : Globals) (now : Int) (w : World V)
    (t : Timer) (hst : w.c.started = true) (ht : w.c.heartbeatT = some t) :
    ∃ w1 gen, Stop g now w = some w1
      ∧ w1.c.started = false
      ∧ w1.c.heartbeatT = some { t with active := false }
      ∧ w1.c.requests = []
      ∧ w1.c.newMetrics = false
      ∧ w1.types = w.types ++ [.AppClosing]
          ++ (if w.c.newMetrics then [.GenerateMetrics] else [])
      ∧ w1.spawned = w.spawned ++ [gen ++ w.c.requests ++ [w.heap.length]]
      ∧ gen = (if w.c.newMetrics then
                List.replicate (w.c.metrics.getD []).length (w.heap.length + 1) else [])
      ∧ batchTypes w1 (gen ++ w.c.requests ++ [w.heap.length])
          = (if w.c.newMetrics then
              List.replicate (w.c.metrics.getD []).length .GenerateMetrics else [])
            ++ batchTypes w1 w.c.requests ++ [.AppClosing]
      ∧ (∀ p ∈ w.c.requests, p ∈ gen ++ w.c.requests ++ [w.heap.length]) := by
  obtain ⟨hsp, hty, hc⟩ := emit_spec g now .AppClosing
    ({ w with c := { w.c with started := false,
                              heartbeatT := some { t with active := false } } } : World V)
  have hbt := batchTypes_emit
    ({ w with c := { w.c with started := false,
                              heartbeatT := some { t with active := false } } } : World V)
    _ .AppClosing (w.c.metrics.getD []).length w.c.newMetrics hty
  refine ⟨_, _, Stop_of_started g now w t hst ht, ?_, ?_, ?_, ?_, hty, hsp, rfl, hbt, ?_⟩
  · rw [hc]
  · rw [hc]
  · rw [hc]
  · rw [hc]
  · intro p hp
    simp [hp]

/-- C18 at the started sample client with one dirty gauge. -/
theorem C18_stop_hands_over_app_closing_witness :
    dirtyWorld.c.started = true
    ∧ dirtyWorld.c.heartbeatT = some { d := 60 * second, active := true }
    ∧ ∃ w1 gen, Stop exampleGlobals 11 dirtyWorld = some w1
      ∧ w1.c.started = false
      ∧ w1.c.heartbeatT = some { ({ d := 60 * second, active := true } : Timer) with
                                  active := false }
      ∧ w1.c.requests = []
      ∧ w1.c.newMetrics = false
      ∧ w1.types = dirtyWorld.types ++ [.AppClosing]
          ++ (if dirtyWorld.c.newMetrics then [.GenerateMetrics] else [])
      ∧ w1.spawned = dirtyWorld.spawned
          ++ [gen ++ dirtyWorld.c.requests ++ [dirtyWorld.heap.length]]
      ∧ gen = (if dirtyWorld.c.newMetrics then
                List.replicate (dirtyWorld.c.metrics.getD []).length
                  (dirtyWorld.heap.length + 1) else [])
      ∧ batchTypes w1 (gen ++ dirtyWorld.c.requests ++ [dirtyWorld.heap.length])
          = (if dirtyWorld.c.newMetrics then
              List.replicate (dirtyWorld.c.metrics.getD []).length .GenerateMetrics else [])
            ++ batchTypes w1 dirtyWorld.c.requests ++ [.AppClosing]
      ∧ (∀ p ∈ dirtyWorld.c.requests,
          p ∈ gen ++ dirtyWorld.c.requests ++ [dirtyWorld.heap.length]) :=
  ⟨by decide, by decide,
    C18_stop_hands_over_app_closing exampleGlobals 11 dirtyWorld
      { d := 60 * second, active := true } (by decide) (by decide)⟩

/-! ## Queue and dirty flag: lemmas -/

theorem lookupMetric_some_nonempty {V : Type} (c : Client V) (ns : Namespace) (key : String)
    (m : metric V) (h : lookupMetric c ns key = some m) : c.metrics.getD [] ≠ [] := by
  unfold lookupMetric at h
  cases hmm : c.metrics with
  | none => simp [hmm] at h
  | some mm =>
    intro hnil
    simp only [Option.getD_some] at hnil
    subst hnil
    simp [hmm] at h

theorem record_clean {V : Type} [Zero V] (kind : metricKind) (upd : V → V) (now : Int)
    (ns : Namespace) (name : String) (tags : List String) (common : Bool) (w w1 : World V)
    (hst : w.c.started = true) (h : record kind upd now ns name tags common w = some w1)
    (hc : w.Clean) : w1.Clean := by
  cases hm : w.c.metrics with
  | none => rw [record_nil _ _ _ _ _ _ _ _ hm] at h; cases h
  | some mm =>
    obtain ⟨w2, mm1, h2, hw2, hl⟩ :=
      record_spec kind upd now ns name tags common w (by simp [hm])
    rw [h2] at h
    cases h
    have hne := lookupMetric_some_nonempty _ _ _ _ hl
    subst hw2
    exact ⟨hc.1, fun _ => ⟨hst, hne⟩⟩

theorem step_clean {V : Type} [Zero V] [Add V] (g : Globals) (op : Op V) (w w1 : World V)
    (h : step g op w = some w1) (hc : w.Clean) : w1.Clean := by
  cases op with
  | Start env configuration =>
    simp only [step, Option.some.injEq] at h
    subst h
    cases hd : env.disabled with
    | true => rw [Start_of_disabled g env configuration w hd]; exact hc
    | false =>
      cases hst : w.c.started with
      | true => rw [Start_of_started g env configuration w hst]; exact hc
      | false =>
        cases hf : (env.fallbackOps w.c.toOptions).2 with
        | some e =>
          rw [Start_of_fallback_error g env configuration w hd hst (by simp [hf])]
          exact hc
        | none =>
          rw [Start_of_ok g env configuration w hd hst hf]
          obtain ⟨_, _, h3, h4, _⟩ := startSession_c g env configuration
            ({ w with c := { w.c with toOptions := (env.fallbackOps w.c.toOptions).1 } } :
              World V)
          exact ⟨h4, fun hn => by rw [h3] at hn; cases hn⟩
  | Stop now =>
    cases hst : w.c.started with
    | false =>
      simp only [step] at h
      rw [Stop_of_stopped g now w hst] at h
      cases h; exact hc
    | true =>
      cases ht : w.c.heartbeatT with
      | none => simp [step, Stop, hst, ht] at h
      | some t =>
        simp only [step] at h
        rw [Stop_of_started g now w t hst ht] at h
        cases h
        constructor
        · rw [flush_c]
        · intro hn; rw [flush_c] at hn; cases hn
  | Gauge now ns name value tags common =>
    cases hst : w.c.started with
    | false => simp [step, Gauge, hst] at h; subst h; exact hc
    | true =>
      simp only [step, Gauge, hst, Bool.not_true, Bool.false_eq_true, if_false] at h
      exact record_clean _ _ _ _ _ _ _ _ _ hst h hc
  | Count now ns name value tags common =>
    cases hst : w.c.started with
    | false => simp [step, Count, hst] at h; subst h; exact hc
    | true =>
      simp only [step, Count, hst, Bool.not_true, Bool.false_eq_true, if_false] at h
      exact record_clean _ _ _ _ _ _ _ _ _ hst h hc
  | Heartbeat now =>
    cases hst : w.c.started with
    | false => simp [step, backgroundHeartbeat, hst] at h; subst h; exact hc
    | true =>
      cases ht : w.c.heartbeatT with
      | none =>
        simp [step, backgroundHeartbeat, hst, flush_c, scheduleSubmit, ht] at h
      | some t =>
        simp only [step] at h
        rw [backgroundHeartbeat_started g now w hst (by simp [ht])] at h
        cases h
        constructor
        · simp only [flush_c]
        · intro hn; simp only [flush_c] at hn; cases hn

theorem run_clean {V : Type} [Zero V] [Add V] (g : Globals) (ops : List (Op V)) (w w1 : World V)
    (h : run g ops w = some w1) (hc : w.Clean) : w1.Clean := by
  induction ops generalizing w with
  | nil => simp only [run, Option.some.injEq] at h; subst h; exact hc
  | cons op ops ih =>
    simp only [run] at h
    cases hs : step g op w with
    | none => simp [hs] at h
    | some w2 =>
      simp only [hs] at h
      exact ih w2 h (step_clean g op w w2 hs hc)

theorem zero_clean (V : Type) (o : Options) : (World.zero V o).Clean :=
  ⟨rfl, fun h => by simp [World.zero] at h⟩

/-! ## Metric identity: lemmas -/

theorem set_keys {K A : Type} [BEq K] [LawfulBEq K] (m : GoMap K A) (k : K) (a : A) :
    (GoMap.set m k a).map Prod.fst
      = if m.any (fun e => e.1 == k) then m.map Prod.fst else m.map Prod.fst ++ [k] := by
  unfold GoMap.set
  cases h : m.any (fun e => e.1 == k)
  · simp
  · simp only [if_true, List.map_map]
    apply List.map_congr_left
    intro e _
    by_cases hk : e.1 = k
    · simp [hk]
    · have : (e.1 == k) = false := by simpa using hk
      simp [this]

theorem set_keys_nodup {K A : Type} [BEq K] [LawfulBEq K] (m : GoMap K A) (k : K) (a : A)
    (h : (m.map Prod.fst).Nodup) : ((GoMap.set m k a).map Prod.fst).Nodup := by
  rw [set_keys]
  cases hany : m.any (fun e => e.1 == k)
  · simp only [Bool.false_eq_true, if_false]
    rw [List.nodup_append]
    refine ⟨h, List.nodup_singleton k, ?_⟩
    intro x hx hx2
    simp only [List.mem_singleton] at hx2
    obtain ⟨e, he, hek⟩ := List.mem_map.mp hx
    have : m.any (fun e => e.1 == k) = true :=
      List.any_eq_true.mpr ⟨e, he, by simp [hek, hx2]⟩
    rw [hany] at this; cases this
  · simpa using h

theorem mem_set {K A : Type} [BEq K] [LawfulBEq K] (m : GoMap K A) (k : K) (a : A) (e : K × A)
    (h : e ∈ GoMap.set m k a) : e ∈ m ∨ e = (k, a) := by
  unfold GoMap.set at h
  cases hany : m.any (fun e => e.1 == k)
  · simp only [hany, Bool.false_eq_true, if_false, List.mem_append, List.mem_singleton] at h
    exact h
  · simp only [hany, if_true, List.mem_map] at h
    obtain ⟨x, hx, rfl⟩ := h
    by_cases hk : (x.1 == k) = true
    · right; simp [hk]
    · left; simp only [hk, if_false]; exact hx

theorem lookup_isSome_of_mem {K A : Type} [BEq K] [LawfulBEq K] (m : GoMap K A) (k : K) (a : A)
    (h : (k, a) ∈ m) : ∃ b, List.lookup k m = some b ∧ (k, b) ∈ m := by
  induction m with
  | nil => cases h
  | cons e es ih =>
    obtain ⟨k0, a0⟩ := e
    cases h0 : (k == k0)
    · rcases List.mem_cons.mp h with h1 | h1
      · cases h1; simp at h0
      · obtain ⟨b, hb, hmem⟩ := ih h1
        exact ⟨b, by simp only [List.lookup_cons, h0, hb], List.mem_cons_of_mem _ hmem⟩
    · have : k = k0 := by simpa using h0
      subst this
      exact ⟨a0, by simp only [List.lookup_cons, h0], List.mem_cons_self _ _⟩

theorem record_eq_map {V : Type} [Zero V] (kind : metricKind) (upd : V → V) (now : Int)
    (ns : Namespace) (name : String) (tags : List String) (common : Bool) (w : World V)
    (mm : GoMap Namespace (GoMap String (metric V))) (h : w.c.metrics = some mm) :
    record kind upd now ns name tags common w
      = some { w with c := { w.c with
          metrics := some (recordMap kind upd now ns name tags common mm),
          newMetrics := true } } := by
  simp only [record, h, recordMap]

theorem recordMap_unique {V : Type} [Zero V] (kind : metricKind) (upd : V → V) (now : Int)
    (ns : Namespace) (name : String) (tags : List String) (common : Bool)
    (mm : GoMap Namespace (GoMap String (metric V))) (h : MetricsUnique mm) :
    MetricsUnique (recordMap kind upd now ns name tags common mm) := by
  have h1 : MetricsUnique (if (mm.lookup ns).isNone then GoMap.set mm ns [] else mm) := by
    cases hl : (List.lookup ns mm).isNone
    · simpa [hl] using h
    · simp only [hl, if_true]
      refine ⟨set_keys_nodup mm ns [] h.1, fun e he => ?_⟩
      rcases mem_set mm ns [] e he with h2 | h2
      · exact h.2 e h2
      · subst h2; exact List.nodup_nil
  unfold recordMap
  refine ⟨set_keys_nodup _ ns _ h1.1, fun e he => ?_⟩
  rcases mem_set _ ns _ e he with h2 | h2
  · exact h1.2 e h2
  · subst h2
    apply set_keys_nodup
    cases hl : List.lookup ns (if (mm.lookup ns).isNone then GoMap.set mm ns [] else mm) with
    | none => exact List.nodup_nil
    | some inner => exact h1.2 (ns, inner) (mem_of_lookup _ ns inner hl)

theorem lookupMetric_some {V : Type} (c : Client V)
    (mm : GoMap Namespace (GoMap String (metric V))) (h : c.metrics = some mm)
    (ns : Namespace) (key : String) : lookupMetric c ns key = lookup2 mm ns key := by
  unfold lookupMetric lookup2
  simp only [h]
  cases List.lookup ns mm <;> rfl

theorem lookup_set_set_other {A : Type} (mm1 : GoMap Namespace (GoMap String A))
    (ns : Namespace) (key : String) (a : A) (ns1 : Namespace) (key1 : String)
    (hne : ¬ (ns1 = ns ∧ key1 = key)) :
    lookup2 (GoMap.set mm1 ns (GoMap.set ((List.lookup ns mm1).getD []) key a)) ns1 key1
      = lookup2 mm1 ns1 key1 := by
  unfold lookup2
  by_cases hns : ns1 = ns
  · subst hns
    have hk : key1 ≠ key := fun hk => hne ⟨rfl, hk⟩
    rw [lookup_set_self]
    dsimp only
    rw [lookup_set_ne _ _ _ _ hk]
    cases hl : List.lookup ns1 mm1 with
    | none => simp
    | some inner => simp
  · rw [lookup_set_ne _ _ _ _ hns]

theorem lookup_default_ns {A : Type} (mm : GoMap Namespace (GoMap String A))
    (ns ns1 : Namespace) (key1 : String) :
    lookup2 (if (mm.lookup ns).isNone then GoMap.set mm ns [] else mm) ns1 key1
      = lookup2 mm ns1 key1 := by
  unfold lookup2
  cases hl : List.lookup ns mm with
  | some inner => simp
  | none =>
    simp only [Option.isNone_none, if_true]
    by_cases hns : ns1 = ns
    · subst hns
      rw [lookup_set_self, hl]
      simp
    · rw [lookup_set_ne _ _ _ _ hns]

theorem recordMap_eq {V : Type} [Zero V] (kind : metricKind) (upd : V → V) (now : Int)
    (ns : Namespace) (name : String) (tags : List String) (common : Bool)
    (mm : GoMap Namespace (GoMap String (metric V))) :
    ∃ a, recordMap kind upd now ns name tags common mm
      = GoMap.set (if (mm.lookup ns).isNone then GoMap.set mm ns [] else mm) ns
          (GoMap.set
            ((List.lookup ns (if (mm.lookup ns).isNone then GoMap.set mm ns [] else mm)).getD [])
            (metricKey name tags) a) :=
  ⟨_, rfl⟩

theorem record_other {V : Type} [Zero V] (kind : metricKind) (upd : V → V) (now : Int)
    (ns : Namespace) (name : String) (tags : List String) (common : Bool) (w w1 : World V)
    (h : record kind upd now ns name tags common w = some w1) (ns1 : Namespace) (key1 : String)
    (hne : ¬ (ns1 = ns ∧ key1 = metricKey name tags)) :
    lookupMetric w1.c ns1 key1 = lookupMetric w.c ns1 key1 := by
  cases hmm : w.c.metrics with
  | none => rw [record_nil _ _ _ _ _ _ _ _ hmm] at h; cases h
  | some mm =>
    rw [record_eq_map _ _ _ _ _ _ _ _ mm hmm] at h
    cases h
    rw [lookupMetric_some _ _ rfl, lookupMetric_some _ mm hmm]
    obtain ⟨a, ha⟩ := recordMap_eq kind upd now ns name tags common mm
    rw [ha, lookup_set_set_other _ ns _ a ns1 key1 hne, lookup_default_ns]

/-- What a `Gauge` or `Count` call on a started client with its map in place does
to the identities stored: under its own key the identity that was there stays,
or the call's identity appears if none was there; every other key is as it was. -/
theorem step_metricCall {V : Type} [Zero V] [Add V] (g : Globals) (op : Op V) (w : World V)
    (ns : Namespace) (key : String) (id : Identity) (hop : Op.metricCall op = some (ns, key, id))
    (hst : w.c.started = true) (hm : w.c.metrics.isSome = true) :
    ∃ w1, step g op w = some w1 ∧ w1.c.started = true ∧ w1.c.metrics.isSome = true
      ∧ (lookupMetric w1.c ns key).map metric.identity
          = some (((lookupMetric w.c ns key).map metric.identity).getD id)
      ∧ (∀ ns1 key1, ¬ (ns1 = ns ∧ key1 = key) →
          lookupMetric w1.c ns1 key1 = lookupMetric w.c ns1 key1)
      ∧ (MetricsUnique (w.c.metrics.getD []) → MetricsUnique (w1.c.metrics.getD [])) := by
  obtain ⟨mm, hmm⟩ := Option.isSome_iff_exists.mp hm
  cases op with
  | Start env configuration => simp [Op.metricCall] at hop
  | Stop now => simp [Op.metricCall] at hop
  | Heartbeat now => simp [Op.metricCall] at hop
  | Gauge now ns0 name value tags common =>
    simp only [Op.metricCall, Option.some.injEq, Prod.mk.injEq] at hop
    obtain ⟨rfl, rfl, rfl⟩ := hop
    obtain ⟨w1, mm1, h1, hw1, hl⟩ :=
      record_spec metricKindGauge (fun _ => value) now ns0 name tags common w hm
    have hstep : step g (.Gauge now ns0 name value tags common) w = some w1 := by
      simp only [step, Gauge, hst, Bool.not_true, Bool.false_eq_true, if_false]; exact h1
    refine ⟨w1, hstep, by rw [hw1]; exact hst, by rw [hw1]; rfl, ?_,
      fun ns1 key1 hne => record_other _ _ _ _ _ _ _ _ _ h1 ns1 key1 hne, ?_⟩
    · rw [hl]
      cases hold : lookupMetric w.c ns0 (metricKey name tags) <;>
        simp [metric.identity, newmetric]
    · intro hu
      have h2 := record_eq_map metricKindGauge (fun _ => value) now ns0 name tags common w mm hmm
      rw [h1] at h2
      cases h2
      rw [hmm] at hu
      change MetricsUnique (recordMap metricKindGauge (fun _ => value) now ns0 name tags common mm)
      exact recordMap_unique _ _ _ _ _ _ _ mm hu
  | Count now ns0 name value tags common =>
    simp only [Op.metricCall, Option.some.injEq, Prod.mk.injEq] at hop
    obtain ⟨rfl, rfl, rfl⟩ := hop
    obtain ⟨w1, mm1, h1, hw1, hl⟩ :=
      record_spec metricKindCount (fun old => old + value) now ns0 name tags common w hm
    have hstep : step g (.Count now ns0 name value tags common) w = some w1 := by
      simp only [step, Count, hst, Bool.not_true, Bool.false_eq_true, if_false]; exact h1
    refine ⟨w1, hstep, by rw [hw1]; exact hst, by rw [hw1]; rfl, ?_,
      fun ns1 key1 hne => record_other _ _ _ _ _ _ _ _ _ h1 ns1 key1 hne, ?_⟩
    · rw [hl]
      cases hold : lookupMetric w.c ns0 (metricKey name tags) <;>
        simp [metric.identity, newmetric]
    · intro hu
      have h2 := record_eq_map metricKindCount (fun old => old + value) now ns0 name tags common
        w mm hmm
      rw [h1] at h2
      cases h2
      rw [hmm] at hu
      change MetricsUnique
        (recordMap metricKindCount (fun old => old + value) now ns0 name tags common mm)
      exact recordMap_unique _ _ _ _ _ _ _ mm hu

theorem run_append {V : Type} [Zero V] [Add V] (g : Globals) (a b : List (Op V)) (w : World V) :
    run g (a ++ b) w = (run g a w).bind (run g b) := by
  induction a generalizing w with
  | nil => rfl
  | cons op ops ih =>
    simp only [List.cons_append, run]
    cases step g op w with
    | none => rfl
    | some w1 => exact ih w1

/-- A session of `Gauge` and `Count` calls on a started client with its map in place
completes and keeps the identity of every metric that was stored, and keeps
namespaces and keys unique. -/
theorem run_metricCalls {V : Type} [Zero V] [Add V] (g : Globals) (ops : List (Op V))
    (w : World V) (hops : ∀ op ∈ ops, (Op.metricCall op).isSome = true)
    (hst : w.c.started = true) (hm : w.c.metrics.isSome = true) :
    ∃ w1, run g ops w = some w1 ∧ w1.c.started = true ∧ w1.c.metrics.isSome = true
      ∧ (∀ ns key m0, lookupMetric w.c ns key = some m0 →
          (lookupMetric w1.c ns key).map metric.identity = some m0.identity)
      ∧ (MetricsUnique (w.c.metrics.getD []) → MetricsUnique (w1.c.metrics.getD [])) := by
  induction ops generalizing w with
  | nil => exact ⟨w, rfl, hst, hm, fun ns key m0 h => by rw [h]; rfl, fun h => h⟩
  | cons op ops ih =>
    have hop := hops op (List.mem_cons_self _ _)
    obtain ⟨⟨ns, key, id⟩, hcall⟩ := Option.isSome_iff_exists.mp hop
    obtain ⟨w2, h2, hst2, hm2, hself, hother, hu2⟩ :=
      step_metricCall g op w ns key id hcall hst hm
    obtain ⟨w1, h1, hst1, hm1, hid1, hu1⟩ :=
      ih w2 (fun o ho => hops o (List.mem_cons_of_mem _ ho)) hst2 hm2
    refine ⟨w1, by simp only [run, h2, h1], hst1, hm1, ?_, fun h => hu1 (hu2 h)⟩
    intro ns1 key1 m0 h0
    by_cases hk : ns1 = ns ∧ key1 = key
    · obtain ⟨rfl, rfl⟩ := hk
      rw [h0] at hself
      simp only [Option.map_some', Option.getD_some] at hself
      cases h2m : lookupMetric w2.c ns1 key1 with
      | none => rw [h2m] at hself; cases hself
      | some m2 =>
        rw [h2m] at hself
        simp only [Option.map_some', Option.some.injEq] at hself
        rw [hid1 ns1 key1 m2 h2m, hself]
    · have := hother ns1 key1 hk
      rw [h0] at this
      exact hid1 ns1 key1 m0 this

/-! ## Metric identity: claims -/

/-- C19: on a started client with its map in place, any session of `Gauge` and
`Count` calls completes; every metric stored before the session keeps its kind,
name, tags and common flag; a call that finds no metric under its key creates
one with the call's kind, name, tags and common flag, and that identity is the
one found under the key at the end, whatever `Gauge` and `Count` calls follow;
and namespaces and keys stay unique, so a key holds at most one metric. -/
theorem C19_identity_fixed_at_creation {V : Type} [Zero V] [Add V] (g : Globals)
    (ops : List (Op V)) (w : World V) (hops : ∀ op ∈ ops, (Op.metricCall op).isSome = true)
    (hst : w.c.started = true) (hm : w.c.metrics.isSome = true) :
    ∃ w1, run g ops w = some w1
      ∧ (∀ ns key m0, lookupMetric w.c ns key = some m0 →
          ∃ m1, lookupMetric w1.c ns key = some m1 ∧ m1.kind = m0.kind ∧ m1.name = m0.name
            ∧ m1.tags = m0.tags ∧ m1.common = m0.common)
      ∧ (∀ pre op post wp ns key id, ops = pre ++ op :: post → run g pre w = some wp →
          Op.metricCall op = some (ns, key, id) → lookupMetric wp.c ns key = none →
          ∃ m1, lookupMetric w1.c ns key = some m1 ∧ m1.kind = id.kind ∧ m1.name = id.name
            ∧ m1.tags = id.tags ∧ m1.common = id.common)
      ∧ (MetricsUnique (w.c.metrics.getD []) → MetricsUnique (w1.c.metrics.getD [])) := by
  obtain ⟨w1, hrun, _, _, hid, hu⟩ := run_metricCalls g ops w hops hst hm
  have split : ∀ (c : Client V) ns key (i : Identity),
      (lookupMetric c ns key).map metric.identity = some i →
      ∃ m1, lookupMetric c ns key = some m1 ∧ m1.kind = i.kind ∧ m1.name = i.name
        ∧ m1.tags = i.tags ∧ m1.common = i.common := by
    intro c ns key i h
    cases hl : lookupMetric c ns key with
    | none => rw [hl] at h; cases h
    | some m1 =>
      rw [hl] at h
      simp only [Option.map_some', Option.some.injEq] at h
      subst h
      exact ⟨m1, rfl, rfl, rfl, rfl, rfl⟩
  refine ⟨w1, hrun, fun ns key m0 h0 => split _ _ _ _ (hid ns key m0 h0), ?_, hu⟩
  intro pre op post wp ns key id hsplit hpre hcall hnone
  subst hsplit
  obtain ⟨wp1, hp1, hstp, hmp, _, _⟩ := run_metricCalls g pre w
    (fun o ho => hops o (List.mem_append_left _ ho)) hst hm
  rw [hpre] at hp1
  cases hp1
  obtain ⟨w2, h2, hst2, hm2, hself, _, _⟩ := step_metricCall g op wp ns key id hcall hstp hmp
  obtain ⟨w3, h3, _, _, hid3, _⟩ := run_metricCalls g post w2
    (fun o ho => hops o (List.mem_append_right _ (List.mem_cons_of_mem _ ho))) hst2 hm2
  have hfull : run g (pre ++ op :: post) w = some w3 := by
    rw [run_append, hpre]
    change run g (op :: post) wp = some w3
    simp only [run, h2, h3]
  rw [hrun] at hfull
  cases hfull
  rw [hnone] at hself
  simp only [Option.map_none', Option.getD_none] at hself
  obtain ⟨m2, hm2l, hk, hn, htg, hcm⟩ := split _ _ _ _ hself
  obtain ⟨m3, hm3l, hk3, hn3, htg3, hcm3⟩ := split _ _ _ _ (hid3 ns key m2 hm2l)
  exact ⟨m3, hm3l, by rw [hk3]; exact hk, by rw [hn3]; exact hn, by rw [htg3]; exact htg,
    by rw [hcm3]; exact hcm⟩

/-- C19 at the freshly started sample client and a session in which a count follows
a gauge on the same key. -/
theorem C19_identity_fixed_at_creation_witness :
    (∀ op ∈ mixedCalls, (Op.metricCall op).isSome = true)
    ∧ startedWorld.c.started = true ∧ startedWorld.c.metrics.isSome = true
    ∧ ∃ w1, run exampleGlobals mixedCalls startedWorld = some w1
      ∧ (∀ ns key m0, lookupMetric startedWorld.c ns key = some m0 →
          ∃ m1, lookupMetric w1.c ns key = some m1 ∧ m1.kind = m0.kind ∧ m1.name = m0.name
            ∧ m1.tags = m0.tags ∧ m1.common = m0.common)
      ∧ (∀ pre op post wp ns key id, mixedCalls = pre ++ op :: post →
          run exampleGlobals pre startedWorld = some wp →
          Op.metricCall op = some (ns, key, id) → lookupMetric wp.c ns key = none →
          ∃ m1, lookupMetric w1.c ns key = some m1 ∧ m1.kind = id.kind ∧ m1.name = id.name
            ∧ m1.tags = id.tags ∧ m1.common = id.common)
      ∧ (MetricsUnique (startedWorld.c.metrics.getD []) →
          MetricsUnique (w1.c.metrics.getD [])) :=
  ⟨by simp [mixedCalls, Op.metricCall], by decide, by decide,
    C19_identity_fixed_at_creation exampleGlobals mixedCalls startedWorld
      (by simp [mixedCalls, Op.metricCall]) (by decide) (by decide)⟩

/-! ## Metric key: lemmas -/

theorem intercalate_go_data (acc s : String) (as : List String) :
    (String.intercalate.go acc s as).data
      = acc.data ++ tailChars s.data (as.map String.data) := by
  induction as generalizing acc with
  | nil => simp [String.intercalate.go, tailChars]
  | cons a as ih =>
    rw [String.intercalate.go, ih]
    simp [tailChars, String.data_append, List.append_assoc]

theorem intercalate_cons_data (s a : String) (as : List String) :
    (String.intercalate s (a :: as)).data
      = a.data ++ tailChars s.data (as.map String.data) := by
  rw [String.intercalate, intercalate_go_data]

theorem tailChars_head (xs : List (List Char)) :
    tailChars ['-'] xs = [] ∨ ∃ r, tailChars ['-'] xs = '-' :: r := by
  cases xs with
  | nil => left; rfl
  | cons a as => right; exact ⟨a ++ tailChars ['-'] as, rfl⟩

/-- A text without the separator, followed by nothing or by the separator, is
determined by the whole. -/
theorem plain_prefix_unique (a b r1 r2 : List Char) (ha : '-' ∉ a) (hb : '-' ∉ b)
    (h1 : r1 = [] ∨ ∃ r, r1 = '-' :: r) (h2 : r2 = [] ∨ ∃ r, r2 = '-' :: r)
    (h : a ++ r1 = b ++ r2) : a = b ∧ r1 = r2 := by
  induction a generalizing b with
  | nil =>
    cases b with
    | nil => exact ⟨rfl, by simpa using h⟩
    | cons y ys =>
      exfalso
      simp only [List.nil_append, List.cons_append] at h
      rcases h1 with h1 | ⟨r, h1⟩
      · rw [h1] at h; cases h
      · rw [h1] at h
        injection h with hy _
        exact hb (by rw [← hy]; exact List.mem_cons_self _ _)
  | cons x xs ih =>
    cases b with
    | nil =>
      exfalso
      simp only [List.nil_append, List.cons_append] at h
      rcases h2 with h2 | ⟨r, h2⟩
      · rw [h2] at h; cases h
      · rw [h2] at h
        injection h with hx _
        exact ha (by rw [hx]; exact List.mem_cons_self _ _)
    | cons y ys =>
      simp only [List.cons_append] at h
      injection h with hxy hrest
      have ha2 : '-' ∉ xs := fun hm => ha (List.mem_cons_of_mem _ hm)
      have hb2 : '-' ∉ ys := fun hm => hb (List.mem_cons_of_mem _ hm)
      obtain ⟨h3, h4⟩ := ih ys ha2 hb2 hrest
      exact ⟨by rw [hxy, h3], h4⟩

theorem tailChars_injective (xs ys : List (List Char)) (hx : ∀ a ∈ xs, '-' ∉ a)
    (hy : ∀ a ∈ ys, '-' ∉ a) (h : tailChars ['-'] xs = tailChars ['-'] ys) : xs = ys := by
  induction xs generalizing ys with
  | nil =>
    cases ys with
    | nil => rfl
    | cons b bs => simp [tailChars] at h
  | cons a as ih =>
    cases ys with
    | nil => simp [tailChars] at h
    | cons b bs =>
      simp only [tailChars, List.singleton_append, List.cons_append, List.cons.injEq,
        true_and] at h
      obtain ⟨h1, h2⟩ := plain_prefix_unique a b _ _ (hx a (List.mem_cons_self _ _))
        (hy b (List.mem_cons_self _ _)) (tailChars_head as) (tailChars_head bs) h
      rw [h1, ih bs (fun c hc => hx c (List.mem_cons_of_mem _ hc))
        (fun c hc => hy c (List.mem_cons_of_mem _ hc)) h2]

theorem map_data_injective (xs ys : List String) (h : xs.map String.data = ys.map String.data) :
    xs = ys := by
  induction xs generalizing ys with
  | nil =>
    cases ys with
    | nil => rfl
    | cons b bs => simp at h
  | cons a as ih =>
    cases ys with
    | nil => simp at h
    | cons b bs =>
      simp only [List.map_cons, List.cons.injEq] at h
      rw [String.ext h.1, ih bs h.2]

/-- Joining with "-" is injective on lists of non-empty tags without "-". -/
theorem intercalate_injective (tags1 tags2 : List String) (h1 : PlainTags tags1)
    (h2 : PlainTags tags2)
    (h : String.intercalate "-" tags1 = String.intercalate "-" tags2) : tags1 = tags2 := by
  have hd := congrArg String.data h
  have hsep : ("-" : String).data = ['-'] := rfl
  have plain : ∀ (ts : List String), PlainTags ts → ∀ a ∈ ts.map String.data, '-' ∉ a := by
    intro ts hts a ha
    obtain ⟨t, ht, rfl⟩ := List.mem_map.mp ha
    exact (hts t ht).2
  cases tags1 with
  | nil =>
    cases tags2 with
    | nil => rfl
    | cons b bs =>
      exfalso
      rw [intercalate_cons_data] at hd
      have hnil : (String.intercalate "-" ([] : List String)).data = [] := rfl
      rw [hnil] at hd
      have hb : b.data = [] := (List.append_eq_nil.mp hd.symm).1
      exact (h2 b (List.mem_cons_self _ _)).1 (String.ext hb)
  | cons a as =>
    cases tags2 with
    | nil =>
      exfalso
      rw [intercalate_cons_data] at hd
      have hnil : (String.intercalate "-" ([] : List String)).data = [] := rfl
      rw [hnil] at hd
      have ha : a.data = [] := (List.append_eq_nil.mp hd).1
      exact (h1 a (List.mem_cons_self _ _)).1 (String.ext ha)
    | cons b bs =>
      rw [intercalate_cons_data, intercalate_cons_data, hsep] at hd
      obtain ⟨h3, h4⟩ := plain_prefix_unique a.data b.data _ _
        (h1 a (List.mem_cons_self _ _)).2 (h2 b (List.mem_cons_self _ _)).2
        (tailChars_head _) (tailChars_head _) hd
      have h5 := tailChars_injective _ _
        (plain as (fun t ht => h1 t (List.mem_cons_of_mem _ ht)))
        (plain bs (fun t ht => h2 t (List.mem_cons_of_mem _ ht))) h4
      rw [String.ext h3, map_data_injective as bs h5]

/-! ## Metric key: claims -/

/-- C20: `metricKey name tags` is the name followed by the tags joined with "-"; and
for one name and two tag lists whose tags are non-empty and hold no "-", the
keys are equal exactly when the lists are equal, element by element in the same
order. -/
theorem C20_metricKey_order_sensitive (name : String) (tags1 tags2 : List String)
    (h1 : PlainTags tags1) (h2 : PlainTags tags2) :
    metricKey name tags1 = name ++ String.intercalate "-" tags1
    ∧ (metricKey name tags1 = metricKey name tags2 ↔ tags1 = tags2) := by
  refine ⟨rfl, ⟨fun h => ?_, fun h => by rw [h]⟩⟩
  unfold metricKey at h
  have hd := congrArg String.data h
  rw [String.data_append, String.data_append] at hd
  exact intercalate_injective tags1 tags2 h1 h2 (String.ext (List.append_cancel_left hd))

/-- C20 at two orders of the same two tags: the keys differ. -/
theorem C20_metricKey_order_sensitive_witness :
    PlainTags ["env:prod", "svc:a"] ∧ PlainTags ["svc:a", "env:prod"]
    ∧ metricKey "spans" ["env:prod", "svc:a"]
        = "spans" ++ String.intercalate "-" ["env:prod", "svc:a"]
    ∧ (metricKey "spans" ["env:prod", "svc:a"] = metricKey "spans" ["svc:a", "env:prod"]
        ↔ ["env:prod", "svc:a"] = ["svc:a", "env:prod"]) :=
  ⟨by unfold PlainTags; decide, by unfold PlainTags; decide,
    C20_metricKey_order_sensitive "spans" ["env:prod", "svc:a"] ["svc:a", "env:prod"]
      (by unfold PlainTags; decide) (by unfold PlainTags; decide)⟩

/-! ## Reachable states: lemmas -/

theorem settled_clean {V : Type} (w : World V) (h : w.Settled) : w.Clean := by
  refine ⟨h.1, fun hn => ?_⟩
  obtain ⟨hst, ns, key, m, hl⟩ := h.2 hn
  exact ⟨hst, lookupMetric_some_nonempty _ _ _ _ hl⟩

/-- Requests and batches are only ever added: if each generate-metrics request
among the added ones is listed in an added batch, the property is kept. -/
theorem genSubmitted_extend {V : Type} (w w1 : World V) (ts : List RequestType)
    (bs : List (List Nat)) (h : w.GenSubmitted) (ht : w1.types = w.types ++ ts)
    (hsp : w1.spawned = w.spawned ++ bs)
    (hnew : ∀ i, ts[i]? = some RequestType.GenerateMetrics →
      ∃ b ∈ bs, w.heap.length + i ∈ b) : w1.GenSubmitted := by
  intro p hp
  rw [ht] at hp
  have hlen := types_length w
  by_cases hlt : p < w.types.length
  · rw [List.getElem?_append_left hlt] at hp
    obtain ⟨b, hb, hpb⟩ := h p hp
    exact ⟨b, by rw [hsp]; exact List.mem_append_left _ hb, hpb⟩
  · rw [List.getElem?_append_right (by omega)] at hp
    obtain ⟨b, hb, hpb⟩ := hnew (p - w.types.length) hp
    refine ⟨b, by rw [hsp]; exact List.mem_append_right _ hb, ?_⟩
    have : w.heap.length + (p - w.types.length) = p := by omega
    rw [this] at hpb
    exact hpb

theorem startRequests_types {V : Type} (g : Globals) (env : StartEnv)
    (configuration : List Configuration) (w : World V) :
    (startRequests g env configuration w).types
      = w.types ++ ([.AppStarted] ++
          (if env.collectDependencies then [.DependenciesLoaded] else []))
    ∧ (startRequests g env configuration w).spawned = w.spawned := by
  unfold startRequests
  cases hc : env.collectDependencies
  · simp only [Bool.false_eq_true, if_false, List.append_nil]
    exact ⟨by
      change ((newRequest g env.now .AppStarted w).1.setPayload _ _).types = _
      rw [setPayload_types, newRequest_types], by simp [scheduleSubmit]⟩
  · simp only [if_true]
    refine ⟨?_, by simp [scheduleSubmit]⟩
    change ((newRequest g env.now .DependenciesLoaded _).1.setPayload _ _).types = _
    rw [setPayload_types, newRequest_types]
    have : (scheduleSubmit ((newRequest g env.now .AppStarted w).1.setPayload
        (newRequest g env.now .AppStarted w).2
        (Payload.AppStarted configuration
          { AppSec := { Version := g.versionTag, Enabled := env.appsecEnabled },
            Profiler := { Version := g.versionTag, Enabled := false } }))
        (newRequest g env.now .AppStarted w).2).types = w.types ++ [.AppStarted] := by
      change ((newRequest g env.now .AppStarted w).1.setPayload _ _).types = _
      rw [setPayload_types, newRequest_types]
    rw [this]
    simp

/-- A session started with the dirty flag cleared builds no generate-metrics
request and hands over one batch. -/
theorem startSession_heap {V : Type} (g : Globals) (env : StartEnv)
    (configuration : List Configuration) (wf : World V) (hn : wf.c.newMetrics = false) :
    (startSession g env configuration wf).types
      = wf.types ++ ([.AppStarted] ++
          (if env.collectDependencies then [.DependenciesLoaded] else []))
    ∧ ∃ batch, (startSession g env configuration wf).spawned = wf.spawned ++ [batch] := by
  have hreq := startRequests_types g env configuration
    ({ wf with c := { wf.c with started := true, metrics := some [],
                                 debug := env.debugEnv } } : World V)
  have hc := startRequests_c g env configuration
    ({ wf with c := { wf.c with started := true, metrics := some [],
                                 debug := env.debugEnv } } : World V)
  constructor
  · change (flush g env.now (startRequests g env configuration _)).types = _
    have hnm : (startRequests g env configuration
        ({ wf with c := { wf.c with started := true, metrics := some [],
                                     debug := env.debugEnv } } : World V)).c.newMetrics
        = false := by
      rw [hc]; exact hn
    rw [flush_types, hnm]
    simp only [Bool.false_eq_true, if_false]
    exact hreq.1
  · have hsp := flush_spawned g env.now (startRequests g env configuration
      ({ wf with c := { wf.c with started := true, metrics := some [],
                                   debug := env.debugEnv } } : World V))
    rw [hreq.2] at hsp
    exact ⟨_, hsp⟩

/-- Building a request that is not a generate-metrics request, queueing it and
flushing keeps every generate-metrics request handed over, provided the dirty
flag comes with a namespace in the metrics map. -/
theorem emit_genSubmitted {V : Type} (g : Globals) (now : Int) (t : RequestType) (w : World V)
    (ht : t ≠ .GenerateMetrics) (hg : w.GenSubmitted)
    (hd : w.c.newMetrics = true → w.c.metrics.getD [] ≠ []) :
    (flush g now (scheduleSubmit (newRequest g now t w).1 w.heap.length)).GenSubmitted := by
  obtain ⟨hsp, hty, _⟩ := emit_spec g now t w
  rw [List.append_assoc] at hty
  refine genSubmitted_extend w _ _ _ hg hty hsp ?_
  intro i hi
  cases i with
  | zero => simp at hi; exact absurd hi ht
  | succ j =>
    cases hn : w.c.newMetrics with
    | false => simp [hn] at hi
    | true =>
      simp only [hn, if_true, List.singleton_append, List.getElem?_cons_succ] at hi
      cases j with
      | succ k => simp at hi
      | zero =>
        refine ⟨_, List.mem_singleton_self _, ?_⟩
        simp only [hn, if_true, List.append_assoc, List.mem_append]
        left
        have hne := hd hn
        cases hmm : w.c.metrics.getD [] with
        | nil => exact absurd hmm hne
        | cons e es => simp [List.replicate_succ]

theorem step_settled {V : Type} [Zero V] [Add V] (g : Globals) (op : Op V) (w w1 : World V)
    (h : step g op w = some w1) (hs : w.Settled) (hg : w.GenSubmitted) :
    w1.Settled ∧ w1.GenSubmitted := by
  have hclean := settled_clean w hs
  cases op with
  | Start env configuration =>
    simp only [step, Option.some.injEq] at h
    subst h
    cases hd : env.disabled with
    | true => rw [Start_of_disabled g env configuration w hd]; exact ⟨hs, hg⟩
    | false =>
      cases hst : w.c.started with
      | true => rw [Start_of_started g env configuration w hst]; exact ⟨hs, hg⟩
      | false =>
        cases hf : (env.fallbackOps w.c.toOptions).2 with
        | some e =>
          rw [Start_of_fallback_error g env configuration w hd hst (by simp [hf])]
          exact ⟨hs, hg⟩
        | none =>
          rw [Start_of_ok g env configuration w hd hst hf]
          have hn : w.c.newMetrics = false := by
            cases hn : w.c.newMetrics with
            | false => rfl
            | true => have := (hs.2 hn).1; rw [hst] at this; cases this
          obtain ⟨_, _, h3, h4, _⟩ := startSession_c g env configuration
            ({ w with c := { w.c with toOptions := (env.fallbackOps w.c.toOptions).1 } } :
              World V)
          obtain ⟨hty, batch, hsp⟩ := startSession_heap g env configuration
            ({ w with c := { w.c with toOptions := (env.fallbackOps w.c.toOptions).1 } } :
              World V) hn
          refine ⟨⟨h4, fun hn2 => by rw [h3] at hn2; cases hn2⟩, ?_⟩
          refine genSubmitted_extend w _ _ _ hg hty hsp ?_
          intro i hi
          exfalso
          cases hc : env.collectDependencies with
          | false =>
            simp only [hc, Bool.false_eq_true, if_false, List.append_nil] at hi
            cases i with
            | zero => simp at hi
            | succ j => simp at hi
          | true =>
            simp only [hc, if_true, List.singleton_append] at hi
            cases i with
            | zero => simp at hi
            | succ j =>
              cases j with
              | zero => simp at hi
              | succ k => simp at hi
  | Stop now =>
    cases hst : w.c.started with
    | false =>
      simp only [step] at h
      rw [Stop_of_stopped g now w hst] at h
      cases h; exact ⟨hs, hg⟩
    | true =>
      cases ht : w.c.heartbeatT with
      | none => simp [step, Stop, hst, ht] at h
      | some t =>
        simp only [step] at h
        rw [Stop_of_started g now w t hst ht] at h
        cases h
        refine ⟨⟨by rw [flush_c], fun hn => by rw [flush_c] at hn; cases hn⟩, ?_⟩
        exact emit_genSubmitted g now .AppClosing
          ({ w with c := { w.c with started := false,
                                    heartbeatT := some { t with active := false } } } : World V)
          (by decide) hg (fun hn => (hclean.2 hn).2)
  | Gauge now ns name value tags common =>
    cases hst : w.c.started with
    | false => simp [step, Gauge, hst] at h; subst h; exact ⟨hs, hg⟩
    | true =>
      simp only [step, Gauge, hst, Bool.not_true, Bool.false_eq_true, if_false] at h
      have hm : w.c.metrics.isSome = true := by
        cases hmm : w.c.metrics with
        | none => rw [record_nil _ _ _ _ _ _ _ _ hmm] at h; cases h
        | some mm => rfl
      obtain ⟨w2, mm1, h2, hw2, hl⟩ :=
        record_spec metricKindGauge (fun _ => value) now ns name tags common w hm
      rw [h2] at h
      cases h
      refine ⟨⟨by rw [hw2]; exact hs.1, fun _ => ⟨by rw [hw2]; exact hst, _, _, _, hl⟩⟩, ?_⟩
      rw [hw2]; exact hg
  | Count now ns name value tags common =>
    cases hst : w.c.started with
    | false => simp [step, Count, hst] at h; subst h; exact ⟨hs, hg⟩
    | true =>
      simp only [step, Count, hst, Bool.not_true, Bool.false_eq_true, if_false] at h
      have hm : w.c.metrics.isSome = true := by
        cases hmm : w.c.metrics with
        | none => rw [record_nil _ _ _ _ _ _ _ _ hmm] at h; cases h
        | some mm => rfl
      obtain ⟨w2, mm1, h2, hw2, hl⟩ :=
        record_spec metricKindCount (fun old => old + value) now ns name tags common w hm
      rw [h2] at h
      cases h
      refine ⟨⟨by rw [hw2]; exact hs.1, fun _ => ⟨by rw [hw2]; exact hst, _, _, _, hl⟩⟩, ?_⟩
      rw [hw2]; exact hg
  | Heartbeat now =>
    cases hst : w.c.started with
    | false => simp [step, backgroundHeartbeat, hst] at h; subst h; exact ⟨hs, hg⟩
    | true =>
      cases ht : w.c.heartbeatT with
      | none =>
        simp [step, backgroundHeartbeat, hst, flush_c, scheduleSubmit, ht] at h
      | some t =>
        simp only [step] at h
        rw [backgroundHeartbeat_started g now w hst (by simp [ht])] at h
        cases h
        refine ⟨⟨by simp only [flush_c], fun hn => by simp only [flush_c] at hn; cases hn⟩, ?_⟩
        exact emit_genSubmitted g now .AppHeartbeat w (by decide) hg
          (fun hn => (hclean.2 hn).2)

theorem run_settled {V : Type} [Zero V] [Add V] (g : Globals) (ops : List (Op V))
    (w w1 : World V) (h : run g ops w = some w1) (hs : w.Settled) (hg : w.GenSubmitted) :
    w1.Settled ∧ w1.GenSubmitted := by
  induction ops generalizing w with
  | nil => simp only [run, Option.some.injEq] at h; subst h; exact ⟨hs, hg⟩
  | cons op ops ih =>
    simp only [run] at h
    cases hst : step g op w with
    | none => simp [hst] at h
    | some w2 =>
      simp only [hst] at h
      obtain ⟨hs2, hg2⟩ := step_settled g op w w2 hst hs hg
      exact ih w2 h hs2 hg2

theorem zero_settled (V : Type) (o : Options) :
    (World.zero V o).Settled ∧ (World.zero V o).GenSubmitted := by
  refine ⟨⟨rfl, fun h => by simp [World.zero] at h⟩, ?_⟩
  intro p hp
  simp [World.zero, World.types] at hp

/-! ## Reachable states: claims -/

/-- C21: from the zero-value client every sequence of Start, Stop, Gauge, Count and
heartbeat ticks completes in a world in which nothing is queued and in which
the dirty flag, if set, comes with a started client that holds at least one
metric. So a client that is not started is not dirty, a `Start` that passes its
guards builds the start requests and no generate-metrics request, and every
generate-metrics request ever built, each of which took a sequence number, is
listed in a batch handed to a worker. -/
theorem C21_reachable_worlds_are_settled {V : Type} [Zero V] [Add V] (g : Globals)
    (o : Options) (ops : List (Op V)) :
    ∃ w, run g ops (World.zero V o) = some w
      ∧ w.c.requests = []
      ∧ (w.c.newMetrics = true →
          w.c.started = true ∧ ∃ ns key m, lookupMetric w.c ns key = some m)
      ∧ (w.c.started = false → w.c.newMetrics = false)
      ∧ (∀ (env : StartEnv) (configuration : List Configuration),
          w.c.started = false → env.disabled = false →
          (env.fallbackOps w.c.toOptions).2 = none →
          (Start g env configuration w).types
            = w.types ++ ([.AppStarted] ++
                (if env.collectDependencies then [.DependenciesLoaded] else [])))
      ∧ (∀ p, w.types[p]? = some .GenerateMetrics → ∃ b ∈ w.spawned, p ∈ b) := by
  obtain ⟨hs0, hl0⟩ := zero_inv V o
  obtain ⟨w, hrun, _, _⟩ := run_inv g ops (World.zero V o) hs0 hl0
  obtain ⟨hz1, hz2⟩ := zero_settled V o
  obtain ⟨hset, hgen⟩ := run_settled g ops (World.zero V o) w hrun hz1 hz2
  have hstopped : w.c.started = false → w.c.newMetrics = false := by
    intro hst
    cases hn : w.c.newMetrics with
    | false => rfl
    | true => have := (hset.2 hn).1; rw [hst] at this; cases this
  refine ⟨w, hrun, hset.1, hset.2, hstopped, ?_, hgen⟩
  intro env configuration hst hd hf
  rw [Start_of_ok g env configuration w hd hst hf]
  exact (startSession_heap g env configuration
    ({ w with c := { w.c with toOptions := (env.fallbackOps w.c.toOptions).1 } } : World V)
    (hstopped hst)).1

/-- C21 at a session that records before the first start, stops while a gauge is
dirty, records while stopped and starts again. -/
theorem C21_reachable_worlds_are_settled_witness :
    ∃ w, run exampleGlobals restartSession (World.zero Int agentOptions) = some w
      ∧ w.c.requests = []
      ∧ (w.c.newMetrics = true →
          w.c.started = true ∧ ∃ ns key m, lookupMetric w.c ns key = some m)
      ∧ (w.c.started = false → w.c.newMetrics = false)
      ∧ (∀ (env : StartEnv) (configuration : List Configuration),
          w.c.started = false → env.disabled = false →
          (env.fallbackOps w.c.toOptions).2 = none →
          (Start exampleGlobals env configuration w).types
            = w.types ++ ([.AppStarted] ++
                (if env.collectDependencies then [.DependenciesLoaded] else [])))
      ∧ (∀ p, w.types[p]? = some .GenerateMetrics → ∃ b ∈ w.spawned, p ∈ b) :=
  C21_reachable_worlds_are_settled exampleGlobals agentOptions restartSession

/-! ## Batch order: lemmas -/

theorem deref_of_seqs {V : Type} (w : World V) (p : Nat) (x : Int) (h : w.seqs[p]? = some x) :
    ∃ q, w.deref p = some q ∧ q.Body.SeqID = x := by
  simp only [World.seqs, List.getElem?_map, Option.map_eq_some'] at h
  exact h

theorem deref_type_of_types {V : Type} (w : World V) (p : Nat) (t : RequestType)
    (h : w.types[p]? = some t) : (w.deref p).map (fun r => r.Body.RequestType) = some t := by
  simpa [World.types, World.deref] using h

theorem seqs_length {V : Type} (w : World V) : w.seqs.length = w.heap.length := by
  simp [World.seqs]

/-! ## Batch order: claims -/

/-- C22: the batch that a flush hands over lists the generate-metrics entries, one
per namespace when the dirty flag is set, all of them the pointer of the
request just built, and then the queued requests, each once and in the order in
which they were queued; the queue is empty afterwards. When the dirty flag is
set, with the sequence numbers in step with the heap, the queued pointers in
the heap and the counter below the `int64` limit, the generate-metrics request
carries the next sequence number, strictly greater than that of every queued
request, although it is listed before them. -/
theorem C22_flush_lists_metrics_before_queue {V : Type} (g : Globals) (now : Int) (w : World V)
    (hs : w.SeqOK) (hq : ∀ p ∈ w.c.requests, p < w.heap.length)
    (hb : (w.heap.length : Int) + 1 < 2 ^ 63) :
    ∃ gen, (flush g now w).spawned = w.spawned ++ [gen ++ w.c.requests]
      ∧ gen = (if w.c.newMetrics then
                List.replicate (w.c.metrics.getD []).length w.heap.length else [])
      ∧ (flush g now w).c.requests = []
      ∧ (∀ p ∈ gen,
          ((flush g now w).deref p).map (fun r => r.Body.RequestType) = some .GenerateMetrics)
      ∧ (w.c.newMetrics = true →
          ((flush g now w).deref w.heap.length).map
              (fun r => (r.Body.RequestType, r.Body.SeqID))
            = some (.GenerateMetrics, (w.heap.length : Int) + 1)
          ∧ ∀ p ∈ w.c.requests, ∃ q, (flush g now w).deref p = some q
              ∧ q.Body.SeqID = (p : Int) + 1
              ∧ q.Body.SeqID < (w.heap.length : Int) + 1) := by
  have hlen := types_length w
  have hslen := seqs_length w
  have hsf := SeqOK_flush g now w hs
  refine ⟨_, flush_spawned g now w, rfl, by rw [flush_c], ?_, ?_⟩
  · intro p hp
    cases hn : w.c.newMetrics with
    | false => simp [hn] at hp
    | true =>
      simp only [hn, if_true] at hp
      have hpn : p = w.heap.length := (List.mem_replicate.mp hp).2
      subst hpn
      apply deref_type_of_types
      rw [flush_types, hn]
      simp only [if_true]
      rw [List.getElem?_append_right (by omega)]
      simp [hlen]
  · intro hn
    have hseqs : (flush g now w).seqs = w.seqs ++ [wrapInt64 (w.c.seqID + 1)] := by
      rw [flush_seqs, hn]; rfl
    have htypes : (flush g now w).types = w.types ++ [.GenerateMetrics] := by
      rw [flush_types, hn]; rfl
    constructor
    · have h1 : (flush g now w).seqs[w.heap.length]? = some (wrapInt64 (w.c.seqID + 1)) := by
        rw [hseqs, List.getElem?_append_right (by omega)]
        simp [hslen]
      obtain ⟨q, hq1, hq2⟩ := deref_of_seqs _ _ _ h1
      have h2 := seqOK_getElem? _ _ hsf _ _ h1
      have h3 : (flush g now w).types[w.heap.length]? = some .GenerateMetrics := by
        rw [htypes, List.getElem?_append_right (by omega)]
        simp [hlen]
      have h4 := deref_type_of_types _ _ _ h3
      rw [hq1] at h4 ⊢
      simp only [Option.map_some', Option.some.injEq] at h4
      simp only [Option.map_some', Option.some.injEq, Prod.mk.injEq]
      refine ⟨h4, ?_⟩
      rw [hq2, h2]
      exact wrapInt64_of_lt _ (by omega) hb
    · intro p hp
      have hlt := hq p hp
      have h1 : (flush g now w).seqs[p]? = w.seqs[p]? := by
        rw [hseqs, List.getElem?_append_left (by omega)]
      have hx : ∃ x, w.seqs[p]? = some x := by
        rw [List.getElem?_eq_getElem (by omega)]
        exact ⟨_, rfl⟩
      obtain ⟨x, hx⟩ := hx
      rw [hx] at h1
      obtain ⟨q, hq1, hq2⟩ := deref_of_seqs _ _ _ h1
      have h2 := seqOK_getElem? _ _ hsf _ _ h1
      have h3 : wrapInt64 ((p : Int) + 1) = (p : Int) + 1 :=
        wrapInt64_of_lt _ (by omega) (by omega)
      refine ⟨q, hq1, by rw [hq2, h2, h3], ?_⟩
      rw [hq2, h2, h3]
      omega

/-- C22 at the flush of a heartbeat tick on a client with one dirty gauge: the
generate-metrics request, with sequence number 4, is listed before the
app-heartbeat request, with sequence number 3. -/
theorem C22_flush_lists_metrics_before_queue_witness :
    tickFlushWorld.SeqOK
    ∧ (∀ p ∈ tickFlushWorld.c.requests, p < tickFlushWorld.heap.length)
    ∧ (tickFlushWorld.heap.length : Int) + 1 < 2 ^ 63
    ∧ tickFlushWorld.c.newMetrics = true
    ∧ tickFlushWorld.c.requests = [2]
    ∧ tickFlushWorld.heap.length = 3
    ∧ ∃ gen, (flush exampleGlobals 11 tickFlushWorld).spawned
          = tickFlushWorld.spawned ++ [gen ++ tickFlushWorld.c.requests]
      ∧ gen = (if tickFlushWorld.c.newMetrics then
                List.replicate (tickFlushWorld.c.metrics.getD []).length
                  tickFlushWorld.heap.length else [])
      ∧ (flush exampleGlobals 11 tickFlushWorld).c.requests = []
      ∧ (∀ p ∈ gen,
          ((flush exampleGlobals 11 tickFlushWorld).deref p).map
            (fun r => r.Body.RequestType) = some .GenerateMetrics)
      ∧ (tickFlushWorld.c.newMetrics = true →
          ((flush exampleGlobals 11 tickFlushWorld).deref tickFlushWorld.heap.length).map
              (fun r => (r.Body.RequestType, r.Body.SeqID))
            = some (.GenerateMetrics, (tickFlushWorld.heap.length : Int) + 1)
          ∧ ∀ p ∈ tickFlushWorld.c.requests,
              ∃ q, (flush exampleGlobals 11 tickFlushWorld).deref p = some q
                ∧ q.Body.SeqID = (p : Int) + 1
                ∧ q.Body.SeqID < (tickFlushWorld.heap.length : Int) + 1) :=
  ⟨by unfold World.SeqOK seqOK; decide, by decide, by decide, by decide, by decide, by decide,
    C22_flush_lists_metrics_before_queue exampleGlobals 11 tickFlushWorld
      (by unfold World.SeqOK seqOK; decide) (by decide) (by decide)⟩

end Telemetry
